import Mathlib

/-!
Verification development for the auto_stock trading core.

Shallow embedding of:
  * backend/app/utils/tick_size.py          (tick-size table and rounding)
  * backend/app/services/advanced_risk_manager.py (Kelly criterion)
  * backend/app/services/parser.py          (condition evaluator)
  * backend/app/services/backtest.py        (BacktestEngine)
  * backend/app/services/monte_carlo.py     (MonteCarloSimulator)

Machine floats are modelled by exact rationals (ℚ), Python ints by ℤ/ℕ,
pandas timestamps by integer day numbers (ℤ), so that `(b - a).days = b - a`.
-/

namespace AutoStock

/-- Python `int(x)` truncation toward zero on a rational. -/
def pyInt (q : ℚ) : ℤ := if 0 ≤ q then ⌊q⌋ else ⌈q⌉

/-! ## tick_size.py -/

/-- `get_korean_tick_size(price)` from backend/app/utils/tick_size.py. -/
def get_korean_tick_size (price : ℚ) : ℤ :=
  if price < 1000 then 1
  else if price < 5000 then 5
  else if price < 10000 then 10
  else if price < 50000 then 50
  else if price < 100000 then 100
  else if price < 500000 then 500
  else 1000

/-- `round_to_tick_down(price, is_korean)`: `int(price / tick) * tick`. -/
def round_to_tick_down (price : ℚ) (is_korean : Bool) : ℚ :=
  if !is_korean then price
  else
    let tick : ℚ := (get_korean_tick_size price : ℚ)
    (pyInt (price / tick) : ℚ) * tick

/-- `round_to_tick_up(price, is_korean)`: `math.ceil(price / tick) * tick`. -/
def round_to_tick_up (price : ℚ) (is_korean : Bool) : ℚ :=
  if !is_korean then price
  else
    let tick : ℚ := (get_korean_tick_size price : ℚ)
    (⌈price / tick⌉ : ℚ) * tick

/-! ## advanced_risk_manager.py: Kelly criterion -/

/-- `AdvancedRiskManager._calculate_kelly_criterion(win_rate, win_loss_ratio)`. -/
def calculate_kelly_criterion (win_rate win_loss_ratio : ℚ) : ℚ :=
  if win_loss_ratio ≤ 0 then 0
  else
    let p := win_rate
    let q := 1 - p
    let b := win_loss_ratio
    let kelly := (p * b - q) / b
    max 0 (min kelly (0.25 : ℚ))

/-! ### Claim C7 (tick values at price 1,234) -/

/-- Claim C7 counterexample: at a KRW price of exactly 1,234 the code's
tick-size table does not assign tick 50, and the rounded prices are not
1,250 / 1,200 as claimed. -/
theorem C7_counterexample :
    ¬ (get_korean_tick_size 1234 = 50 ∧ round_to_tick_up 1234 true = 1250 ∧
        round_to_tick_down 1234 true = 1200) := by
  decide

/-- Claim C7 (amended): for a KRW price of exactly 1,234 the tick-size table
assigns tick 5 (since 1,000 ≤ 1,234 < 5,000), the upward tick rounding
returns 1,235, and the downward tick rounding returns 1,230. -/
theorem C7_amended :
    get_korean_tick_size 1234 = 5 ∧ round_to_tick_up 1234 true = 1235 ∧
      round_to_tick_down 1234 true = 1230 := by
  refine ⟨by norm_num [get_korean_tick_size], ?_, ?_⟩
  · have h : ⌈(1234 : ℚ) / 5⌉ = (247 : ℤ) := by
      rw [Int.ceil_eq_iff]
      norm_num
    norm_num [round_to_tick_up, get_korean_tick_size, h]
  · norm_num [round_to_tick_down, get_korean_tick_size, pyInt]

/-! ### Claim C9 (Kelly fraction bounds) -/

/-- Claim C9: the Kelly computation returns 0 when `win_loss_ratio ≤ 0`, and
for all inputs the returned fraction lies in [0, 0.25]. -/
theorem C9_kelly_bounds (win_rate win_loss_ratio : ℚ) :
    (win_loss_ratio ≤ 0 → calculate_kelly_criterion win_rate win_loss_ratio = 0) ∧
      0 ≤ calculate_kelly_criterion win_rate win_loss_ratio ∧
      calculate_kelly_criterion win_rate win_loss_ratio ≤ 0.25 := by
  unfold calculate_kelly_criterion
  split
  · exact ⟨fun _ => rfl, le_refl 0, by norm_num⟩
  · next h =>
    exact ⟨fun h0 => absurd h0 h, le_max_left 0 _,
      max_le (by norm_num) (min_le_right _ _)⟩

/-- Claim C9 witness: the bounds instantiated at win_rate 3/5,
win_loss_ratio 2, and the zero case at win_loss_ratio -1. -/
theorem C9_kelly_bounds_witness :
    (0 ≤ calculate_kelly_criterion (3/5) 2 ∧ calculate_kelly_criterion (3/5) 2 ≤ 0.25) ∧
      calculate_kelly_criterion (1/2) (-1) = 0 :=
  ⟨⟨(C9_kelly_bounds (3/5) 2).2.1, (C9_kelly_bounds (3/5) 2).2.2⟩,
    (C9_kelly_bounds (1/2) (-1)).1 (by norm_num)⟩

/-! ## parser.py: StrategyParser.evaluate_condition

The indicator DataFrame is modelled as a list of dates plus named numeric
columns; the optional events DataFrame as named boolean columns.  Regex
matching (`re.finditer` for RSI thresholds, `re.search` for WITHIN) is
implemented as a character-level scanner with the same semantics.
-/

/-- Python substring test `pat in s`. -/
def pyIn (pat s : String) : Bool :=
  s.data.tails.any (fun t => pat.data.isPrefixOf t)

/-- Drop leading whitespace, the regex atom `\s*`. -/
def wsDrop : List Char → List Char
  | [] => []
  | c :: cs => if c.isWhitespace then wsDrop cs else c :: cs

/-- Longest digit run at the head, the regex atom `\d+` (greedy). -/
def takeDigits : List Char → List Char × List Char
  | [] => ([], [])
  | c :: cs =>
    if c.isDigit then
      let p := takeDigits cs
      (c :: p.1, p.2)
    else ([], c :: cs)

/-- Longest word-character run at the head, the regex atom `\w+` (greedy). -/
def takeWord : List Char → List Char × List Char
  | [] => ([], [])
  | c :: cs =>
    if c.isAlphanum || c = '_' then
      let p := takeWord cs
      (c :: p.1, p.2)
    else ([], c :: cs)

/-- Numeric value of a digit run. -/
def digitsVal (ds : List Char) : ℕ :=
  ds.foldl (fun acc c => 10 * acc + (c.toNat - 48)) 0

/-- Parse `\d+(?:\.\d+)?` at the head and return its value as a rational
(Python `float(...)` of the matched text, exact here). -/
def parseNumber (cs : List Char) : Option (ℚ × List Char) :=
  match takeDigits cs with
  | ([], _) => none
  | (d, r) =>
    match r with
    | '.' :: r2 =>
      match takeDigits r2 with
      | ([], _) => some ((digitsVal d : ℚ), r)
      | (f, r3) => some ((digitsVal d : ℚ) + (digitsVal f : ℚ) / ((10 : ℚ) ^ f.length), r3)
    | _ => some ((digitsVal d : ℚ), r)

/-- Match `RSI\s*{cmp}\s*(\d+(?:\.\d+)?)` at the head of the list, returning
the captured threshold and the remainder after the match. -/
def matchRSIat (cmp : Char) (l : List Char) : Option (ℚ × List Char) :=
  match l with
  | 'R' :: 'S' :: 'I' :: rest =>
    match wsDrop rest with
    | c :: r2 => if c = cmp then parseNumber (wsDrop r2) else none
    | [] => none
  | _ => none

/-- `re.finditer` scan: try a match at each position, continuing after the end
of every match (matches never overlap).  Fuel `n ≥ length` makes the
recursion structural; each step consumes at least one character. -/
def findRSImatches (cmp : Char) : ℕ → List Char → List ℚ
  | 0, _ => []
  | _, [] => []
  | n + 1, c :: cs =>
    match matchRSIat cmp (c :: cs) with
    | some (v, rest) => v :: findRSImatches cmp n rest
    | none => findRSImatches cmp n cs

/-- All thresholds of `RSI\s*<\s*N` (for `cmp = '<'`) or `RSI\s*>\s*N`
(for `cmp = '>'`) occurring in the condition string, in order. -/
def rsiThresholds (cmp : Char) (condition : String) : List ℚ :=
  findRSImatches cmp condition.data.length condition.data

/-- Match a literal character sequence at the head. -/
def stripLit : List Char → List Char → Option (List Char)
  | [], l => some l
  | _ :: _, [] => none
  | p :: ps, c :: cs => if c = p then stripLit ps cs else none

/-- Match `WITHIN\(event=['"](\w+)['"],\s*window_days=(\d+)\)` at the head,
returning the event name and window. -/
def matchWITHINat (l : List Char) : Option (String × ℕ) :=
  match stripLit "WITHIN(event=".data l with
  | none => none
  | some r0 =>
    match r0 with
    | [] => none
    | q :: rest =>
      if q = '\'' || q = '"' then
        match takeWord rest with
        | ([], _) => none
        | (w, r1) =>
          match r1 with
          | q2 :: ',' :: r2 =>
            if q2 = '\'' || q2 = '"' then
              match stripLit "window_days=".data (wsDrop r2) with
              | none => none
              | some r4 =>
                match takeDigits r4 with
                | ([], _) => none
                | (d, r5) =>
                  match r5 with
                  | ')' :: _ => some (String.mk w, digitsVal d)
                  | _ => none
            else none
          | _ => none
      else none

/-- `re.search` for the WITHIN pattern: first match scanning left to right. -/
def searchWITHIN : List Char → Option (String × ℕ)
  | [] => none
  | c :: cs =>
    match matchWITHINat (c :: cs) with
    | some r => some r
    | none => searchWITHIN cs

/-- Indicator DataFrame: dates (day numbers) and named numeric columns. -/
structure IndicatorTable where
  dates : List ℤ
  cols : List (String × List ℚ)

/-- Column lookup, `indicators['NAME']` guarded by
`'NAME' in indicators.columns`. -/
def IndicatorTable.getCol (t : IndicatorTable) (name : String) : Option (List ℚ) :=
  (t.cols.find? (fun c => c.1 == name)).map (fun c => c.2)

/-- Events DataFrame: dates and named boolean columns. -/
structure EventTable where
  dates : List ℤ
  cols : List (String × List Bool)

/-- Event column lookup. -/
def EventTable.getCol (t : EventTable) (name : String) : Option (List Bool) :=
  (t.cols.find? (fun c => c.1 == name)).map (fun c => c.2)

/-- pandas elementwise `a & b` on aligned boolean series. -/
def andSeries (a b : List Bool) : List Bool := List.zipWith (fun x y => x && y) a b

/-- `(A > B) & (A.shift(1) <= B.shift(1))`: cross-up timeline.  Index 0 is
false because the shifted values are NaN and NaN comparisons are False. -/
def cross_up_series (a b : List ℚ) : List Bool :=
  (List.range a.length).map (fun i =>
    match i with
    | 0 => false
    | j + 1 => decide (a.getD (j + 1) 0 > b.getD (j + 1) 0) && decide (a.getD j 0 ≤ b.getD j 0))

/-- `(A < B) & (A.shift(1) >= B.shift(1))`: cross-down timeline. -/
def cross_down_series (a b : List ℚ) : List Bool :=
  (List.range a.length).map (fun i =>
    match i with
    | 0 => false
    | j + 1 => decide (a.getD (j + 1) 0 < b.getD (j + 1) 0) && decide (a.getD j 0 ≥ b.getD j 0))

/-- `StrategyParser._apply_event_window`: true within `window_days` on either
side of any date flagged for `event_name`. -/
def apply_event_window (dates : List ℤ) (events : Option EventTable)
    (event_name : String) (window_days : ℕ) : List Bool :=
  match events with
  | none => dates.map (fun _ => false)
  | some ev =>
    match ev.getCol event_name with
    | none => dates.map (fun _ => false)
    | some col =>
      let event_dates := (ev.dates.zip col).filterMap (fun p => if p.2 then some p.1 else none)
      dates.map (fun d => event_dates.any (fun ed =>
        decide (ed - (window_days : ℤ) ≤ d) && decide (d ≤ ed + (window_days : ℤ))))

/-- Source block `# MACD cross_up 감지`: `result &= cross_up` when both tokens
occur in the condition and both columns exist. -/
def macd_cross_up_step (condition : String) (indicators : IndicatorTable)
    (r : List Bool) : List Bool :=
  if pyIn "MACD" condition && pyIn "cross_up" condition then
    match indicators.getCol "MACD", indicators.getCol "MACD_signal" with
    | some m, some s => andSeries r (cross_up_series m s)
    | _, _ => r
  else r

/-- Source block `# RSI 조건 (동적 파싱)`: for each regex match of
`RSI < N` and then `RSI > N`, `result &=` the comparison timeline. -/
def rsi_threshold_step (condition : String) (indicators : IndicatorTable)
    (r : List Bool) : List Bool :=
  match indicators.getCol "RSI" with
  | some rsi =>
    List.foldl (fun acc th => andSeries acc (rsi.map (fun v => decide (v > th))))
      (List.foldl (fun acc th => andSeries acc (rsi.map (fun v => decide (v < th))))
        r (rsiThresholds '<' condition))
      (rsiThresholds '>' condition)
  | none => r

/-- Source block `# MACD cross_down 감지`. -/
def macd_cross_down_step (condition : String) (indicators : IndicatorTable)
    (r : List Bool) : List Bool :=
  if pyIn "MACD" condition && pyIn "cross_down" condition then
    match indicators.getCol "MACD", indicators.getCol "MACD_signal" with
    | some m, some s => andSeries r (cross_down_series m s)
    | _, _ => r
  else r

/-- Source block `# +DI > -DI`. -/
def di_step (condition : String) (indicators : IndicatorTable)
    (r : List Bool) : List Bool :=
  if pyIn "+DI > -DI" condition || pyIn "+DI>-DI" condition then
    match indicators.getCol "DI_plus", indicators.getCol "DI_minus" with
    | some p, some m => andSeries r (List.zipWith (fun a b => decide (a > b)) p m)
    | _, _ => r
  else r

/-- Source block `# WITHIN 이벤트 처리`. -/
def within_step (condition : String) (indicators : IndicatorTable)
    (events : Option EventTable) (r : List Bool) : List Bool :=
  if pyIn "WITHIN" condition && events.isSome then
    match searchWITHIN condition.data with
    | some pr => andSeries r (apply_event_window indicators.dates events pr.1 pr.2)
    | none => r
  else r

/-- `StrategyParser.evaluate_condition(condition, indicators, events)`.

The Python body starts from an all-True series of length `len(indicators)`
and `&=`s each recognized clause into it, in source order; its `except`
handlers convert exceptions to `ValueError`, but every column access in the
body is guarded by a membership test, so no branch of the body can raise —
the function always returns a timeline (`Except.ok`). -/
def evaluate_condition (condition : String) (indicators : IndicatorTable)
    (events : Option EventTable) : Except String (List Bool) :=
  Except.ok (within_step condition indicators events
    (di_step condition indicators
      (macd_cross_down_step condition indicators
        (rsi_threshold_step condition indicators
          (macd_cross_up_step condition indicators
            (List.replicate indicators.dates.length true))))))

/-- Modelled from the spec (§4.1): the recognized clauses — named-indicator
threshold comparisons, cross detections, and event-window membership tests —
each evaluated independently over the full date range, in source order.
Clauses whose columns are absent contribute nothing. -/
def recognized_clauses (condition : String) (indicators : IndicatorTable)
    (events : Option EventTable) : List (List Bool) :=
  (if pyIn "MACD" condition && pyIn "cross_up" condition then
    match indicators.getCol "MACD", indicators.getCol "MACD_signal" with
    | some m, some s => [cross_up_series m s]
    | _, _ => []
   else []) ++
  (match indicators.getCol "RSI" with
   | some rsi =>
     (rsiThresholds '<' condition).map (fun th => rsi.map (fun v => decide (v < th))) ++
       (rsiThresholds '>' condition).map (fun th => rsi.map (fun v => decide (v > th)))
   | none => []) ++
  (if pyIn "MACD" condition && pyIn "cross_down" condition then
    match indicators.getCol "MACD", indicators.getCol "MACD_signal" with
    | some m, some s => [cross_down_series m s]
    | _, _ => []
   else []) ++
  (if pyIn "+DI > -DI" condition || pyIn "+DI>-DI" condition then
    match indicators.getCol "DI_plus", indicators.getCol "DI_minus" with
    | some p, some m => [List.zipWith (fun a b => decide (a > b)) p m]
    | _, _ => []
   else []) ++
  (if pyIn "WITHIN" condition && events.isSome then
    match searchWITHIN condition.data with
    | some pr => [apply_event_window indicators.dates events pr.1 pr.2]
    | none => []
   else [])

/-- Logical AND of a list of clause timelines over `n` dates. -/
def and_all_clauses (n : ℕ) (clauses : List (List Bool)) : List Bool :=
  clauses.foldl andSeries (List.replicate n true)

lemma macd_cross_up_step_eq (condition : String) (indicators : IndicatorTable)
    (r : List Bool) :
    macd_cross_up_step condition indicators r =
      List.foldl andSeries r
        (if pyIn "MACD" condition && pyIn "cross_up" condition then
          match indicators.getCol "MACD", indicators.getCol "MACD_signal" with
          | some m, some s => [cross_up_series m s]
          | _, _ => []
         else []) := by
  unfold macd_cross_up_step
  split
  · split <;> rfl
  · rfl

lemma rsi_threshold_step_eq (condition : String) (indicators : IndicatorTable)
    (r : List Bool) :
    rsi_threshold_step condition indicators r =
      List.foldl andSeries r
        (match indicators.getCol "RSI" with
         | some rsi =>
           (rsiThresholds '<' condition).map (fun th => rsi.map (fun v => decide (v < th))) ++
             (rsiThresholds '>' condition).map (fun th => rsi.map (fun v => decide (v > th)))
         | none => []) := by
  unfold rsi_threshold_step
  cases indicators.getCol "RSI" with
  | none => rfl
  | some rsi => simp only [List.foldl_append, List.foldl_map]

lemma macd_cross_down_step_eq (condition : String) (indicators : IndicatorTable)
    (r : List Bool) :
    macd_cross_down_step condition indicators r =
      List.foldl andSeries r
        (if pyIn "MACD" condition && pyIn "cross_down" condition then
          match indicators.getCol "MACD", indicators.getCol "MACD_signal" with
          | some m, some s => [cross_down_series m s]
          | _, _ => []
         else []) := by
  unfold macd_cross_down_step
  split
  · split <;> rfl
  · rfl

lemma di_step_eq (condition : String) (indicators : IndicatorTable)
    (r : List Bool) :
    di_step condition indicators r =
      List.foldl andSeries r
        (if pyIn "+DI > -DI" condition || pyIn "+DI>-DI" condition then
          match indicators.getCol "DI_plus", indicators.getCol "DI_minus" with
          | some p, some m => [List.zipWith (fun a b => decide (a > b)) p m]
          | _, _ => []
         else []) := by
  unfold di_step
  split
  · split <;> rfl
  · rfl

lemma within_step_eq (condition : String) (indicators : IndicatorTable)
    (events : Option EventTable) (r : List Bool) :
    within_step condition indicators events r =
      List.foldl andSeries r
        (if pyIn "WITHIN" condition && events.isSome then
          match searchWITHIN condition.data with
          | some pr => [apply_event_window indicators.dates events pr.1 pr.2]
          | none => []
         else []) := by
  unfold within_step
  split
  · split <;> rfl
  · rfl

/-! ### Claim C4 (AND-combination of recognized clauses) -/

/-- Claim C4: for every condition string, indicator table and event table, the
timeline returned by the condition evaluator is the logical AND of the
independently evaluated recognized clauses, regardless of any `OR` or
parenthesis tokens in the string; and a string with no recognized clauses
yields True at every date. -/
theorem C4_and_of_clauses (condition : String) (indicators : IndicatorTable)
    (events : Option EventTable) :
    evaluate_condition condition indicators events =
      Except.ok (and_all_clauses indicators.dates.length
        (recognized_clauses condition indicators events)) ∧
    (recognized_clauses condition indicators events = [] →
      evaluate_condition condition indicators events =
        Except.ok (List.replicate indicators.dates.length true)) := by
  have main : evaluate_condition condition indicators events =
      Except.ok (and_all_clauses indicators.dates.length
        (recognized_clauses condition indicators events)) := by
    unfold evaluate_condition recognized_clauses and_all_clauses
    rw [macd_cross_up_step_eq, rsi_threshold_step_eq, macd_cross_down_step_eq,
      di_step_eq, within_step_eq]
    simp only [List.foldl_append]
  exact ⟨main, fun h => by rw [main, h]; rfl⟩

/-- A two-date indicator table with an RSI column, used to instantiate C4 on
a condition string consisting only of unrecognized syntax (OR, parentheses,
an unknown name): no clause is recognized, so every date is True. -/
def c4_demo_table : IndicatorTable := ⟨[0, 1], [("RSI", [10, 20])]⟩

/-- Claim C4 witness: the theorem applied to the condition
`"A OR (B > 5)"` — only OR/parenthesis/unknown syntax — over a concrete
table; no clause is recognized and the timeline is True at every date. -/
theorem C4_and_of_clauses_witness :
    evaluate_condition "A OR (B > 5)" c4_demo_table none =
      Except.ok (List.replicate c4_demo_table.dates.length true) :=
  (C4_and_of_clauses "A OR (B > 5)" c4_demo_table none).2 (by rfl)

/-! ### Claim C5 (missing indicator column) -/

/-- A three-date indicator table with no RSI column. -/
def no_rsi_table : IndicatorTable := ⟨[0, 1, 2], [("MACD", [1, 2, 3])]⟩

/-- Claim C5 counterexample: evaluating `"RSI < 30"` against a table whose
RSI column is absent does not fail — it returns a timeline (all-True, the
clause being silently skipped), contradicting the claim that the evaluator
fails with a descriptive error rather than returning a timeline. -/
theorem C5_counterexample :
    evaluate_condition "RSI < 30" no_rsi_table none = Except.ok [true, true, true] := by
  rfl

/-- Claim C5 (amended): for every indicator table whose RSI column is absent,
evaluating `"RSI < 30"` logs a warning and silently skips the clause,
returning the all-True timeline instead of failing. -/
theorem C5_missing_column_skipped (indicators : IndicatorTable)
    (events : Option EventTable) (h : indicators.getCol "RSI" = none) :
    evaluate_condition "RSI < 30" indicators events =
      Except.ok (List.replicate indicators.dates.length true) := by
  have hMACD : pyIn "MACD" "RSI < 30" = false := by rfl
  have hDI1 : pyIn "+DI > -DI" "RSI < 30" = false := by rfl
  have hDI2 : pyIn "+DI>-DI" "RSI < 30" = false := by rfl
  have hW : pyIn "WITHIN" "RSI < 30" = false := by rfl
  simp [evaluate_condition, within_step, di_step, macd_cross_down_step,
    rsi_threshold_step, macd_cross_up_step, h, hMACD, hDI1, hDI2, hW]

/-- Claim C5 amended-claim witness: the amended theorem applied to the
concrete RSI-free table. -/
theorem C5_missing_column_skipped_witness :
    no_rsi_table.getCol "RSI" = none ∧
      evaluate_condition "RSI < 30" no_rsi_table none =
        Except.ok (List.replicate no_rsi_table.dates.length true) :=
  ⟨rfl, C5_missing_column_skipped no_rsi_table none rfl⟩

/-! ## backtest.py: BacktestEngine

One OHLC row of the price DataFrame is a `Bar`; a bar whose OHLC contains a
NaN is marked `has_na` (the run skips it).  The optional `VOL_annualized`
column is carried per row.  Dates are integer day numbers, strictly
increasing for sorted data, so pandas' `(exit - entry).days` is plain
subtraction. -/

/-- One row of the price DataFrame. -/
structure Bar where
  date : ℤ
  open_price : ℚ
  high_price : ℚ
  low_price : ℚ
  close_price : ℚ
  vol_annualized : Option ℚ
  has_na : Bool
deriving DecidableEq

instance : Inhabited Bar := ⟨⟨0, 0, 0, 0, 0, none, false⟩⟩

/-- `position_sizing` literal of RiskParams. -/
inductive PositionSizing
  | equal_weight
  | vol_target_10
  | kelly
deriving DecidableEq

/-- `RiskParams` (models/schemas.py).  Floats are rationals; the two integer
fields are naturals. -/
structure RiskParams where
  stop_pct : ℚ
  take_pct : ℚ
  position_sizing : PositionSizing
  trailing_pct : ℚ
  max_risk_per_trade_pct : ℚ
  max_portfolio_drawdown_pct : ℚ
  daily_loss_limit_pct : ℚ
  cooldown_days_after_loss : ℕ
  max_consecutive_losses : ℕ
  scale_down_after_drawdown_pct : ℚ
  scale_down_factor : ℚ
  risk_free_rate : ℚ
deriving DecidableEq

/-- The pydantic `Field` bounds on RiskParams (ge/le constraints). -/
def RiskParams.Valid (rp : RiskParams) : Prop :=
  0.01 ≤ rp.stop_pct ∧ rp.stop_pct ≤ 0.5 ∧
  0.01 ≤ rp.take_pct ∧ rp.take_pct ≤ 10 ∧
  0.01 ≤ rp.trailing_pct ∧ rp.trailing_pct ≤ 0.5 ∧
  0.0005 ≤ rp.max_risk_per_trade_pct ∧ rp.max_risk_per_trade_pct ≤ 1 ∧
  0.05 ≤ rp.max_portfolio_drawdown_pct ∧ rp.max_portfolio_drawdown_pct ≤ 0.9 ∧
  0 ≤ rp.daily_loss_limit_pct ∧ rp.daily_loss_limit_pct ≤ 0.5 ∧
  rp.cooldown_days_after_loss ≤ 30 ∧
  rp.max_consecutive_losses ≤ 20 ∧
  0 ≤ rp.scale_down_after_drawdown_pct ∧ rp.scale_down_after_drawdown_pct ≤ 0.5 ∧
  0.1 ≤ rp.scale_down_factor ∧ rp.scale_down_factor ≤ 1 ∧
  0 ≤ rp.risk_free_rate ∧ rp.risk_free_rate ≤ 0.15

/-- One rule of `self.partial_rules`. -/
structure PartialRule where
  threshold : ℚ
  sell_pct : ℚ
  flag : String
deriving DecidableEq

/-- `self.partial_rules` as assigned in `BacktestEngine.__init__`:
+20% → sell 50%, +40% → sell 25%. -/
def partial_rules : List PartialRule :=
  [⟨0.20, 0.50, "partial_20"⟩, ⟨0.40, 0.25, "partial_40"⟩]

/-- The open-position dict.  `partial_flags` is the dict keyed by rule flag.
Shares are a Python int (ℤ). -/
structure Position where
  shares : ℤ
  entry_price : ℚ
  entry_date : ℤ
  stop_loss : ℚ
  take_profit : ℚ
  highest_price : ℚ
  invested_capital : ℚ
  pending_exit : Bool
  partial_flags : List (String × Bool)
deriving DecidableEq

/-- One trade-ledger entry.  The Python key `partial` is rendered
`partial_trade` here. -/
structure Trade where
  entry_date : ℤ
  exit_date : ℤ
  entry_price : ℚ
  exit_price : ℚ
  shares : ℤ
  pnl : ℚ
  pnl_pct : ℚ
  exit_reason : String
  holding_days : ℤ
  partial_trade : Bool
deriving DecidableEq

/-- `_holding_days(entry_date, exit_date) = int((exit_date - entry_date).days)`. -/
def holding_days_fn (entry_date exit_date : ℤ) : ℤ := exit_date - entry_date

/-- The engine after `__init__`: sorted data, signals reindexed to the data
(missing dates False), costs already divided by 10,000. -/
structure BacktestEngine where
  data : List Bar
  entry_signals : List Bool
  exit_signals : List Bool
  risk_params : RiskParams
  transaction_cost : ℚ
  slippage : ℚ
  initial_capital : ℚ
  is_korean_stock : Bool
deriving DecidableEq

/-- All mutable locals of `BacktestEngine.run`, plus the trade ledger and the
per-day histories.  `halt_date` records the date embedded in `halt_reason`;
`warnings` counts the warning strings appended (their text is elided). -/
structure RunState where
  cash : ℚ
  equity : ℚ
  previous_equity : ℚ
  position : Option Position
  pending_entry_idx : Option ℕ
  pending_entry_fraction : ℚ
  pending_exit_idx : Option ℕ
  cooldown : ℕ
  consecutive_losses : ℕ
  max_consecutive_losses_observed : ℕ
  trading_halted : Bool
  halt_date : Option ℤ
  scale_down_active : Bool
  size_multiplier : ℚ
  trades : List Trade
  equity_history : List ℚ
  daily_returns : List ℚ
  warnings : ℕ
deriving DecidableEq

/-- Locals as initialized at the top of `run`. -/
def BacktestEngine.init_state (eng : BacktestEngine) : RunState :=
  { cash := eng.initial_capital
    equity := eng.initial_capital
    previous_equity := eng.initial_capital
    position := none
    pending_entry_idx := none
    pending_entry_fraction := 0
    pending_exit_idx := none
    cooldown := 0
    consecutive_losses := 0
    max_consecutive_losses_observed := 0
    trading_halted := false
    halt_date := none
    scale_down_active := false
    size_multiplier := 1
    trades := []
    equity_history := []
    daily_returns := []
    warnings := 0 }

/-- `equity <= initial_capital * (1 - max_portfolio_drawdown_pct)` level. -/
def BacktestEngine.drawdown_halt_level (eng : BacktestEngine) : ℚ :=
  eng.initial_capital * (1 - eng.risk_params.max_portfolio_drawdown_pct)

/-- `equity <= initial_capital * (1 - scale_down_after_drawdown_pct)` level. -/
def BacktestEngine.scale_down_level (eng : BacktestEngine) : ℚ :=
  eng.initial_capital * (1 - eng.risk_params.scale_down_after_drawdown_pct)

/-- `_execute_entry_price`: slippage and cost against the buyer, then tick
rounded up. -/
def BacktestEngine.execute_entry_price (eng : BacktestEngine) (price : ℚ) : ℚ :=
  round_to_tick_up (price * (1 + eng.slippage) * (1 + eng.transaction_cost)) eng.is_korean_stock

/-- `_execute_exit_price`: slippage and cost against the seller, then tick
rounded down. -/
def BacktestEngine.execute_exit_price (eng : BacktestEngine) (price : ℚ) : ℚ :=
  round_to_tick_down (price * (1 - eng.slippage) * (1 - eng.transaction_cost)) eng.is_korean_stock

/-- `_determine_shares`: (shares, capital_used, risk_per_share). -/
def BacktestEngine.determine_shares (eng : BacktestEngine)
    (cash equity entry_price position_fraction size_multiplier : ℚ) : ℤ × ℚ × ℚ :=
  if entry_price ≤ 0 then (0, 0, 0)
  else
    let capital_budget := min (equity * position_fraction * size_multiplier) cash
    let risk_per_share := entry_price * eng.risk_params.stop_pct
    let risk_budget := equity * eng.risk_params.max_risk_per_trade_pct * size_multiplier
    let shares_by_capital := capital_budget / entry_price
    let shares_by_risk := if risk_per_share > 0 then risk_budget / risk_per_share else shares_by_capital
    let shares_by_cash := cash / entry_price
    let shares : ℤ := ⌊min shares_by_capital (min shares_by_risk shares_by_cash)⌋
    if shares ≤ 0 then (0, 0, risk_per_share)
    else (shares, (shares : ℚ) * entry_price, risk_per_share)

/-- Arithmetic mean, `np.mean` on a nonempty list (call sites guard empty). -/
def listMean (l : List ℚ) : ℚ := (l.foldr (fun a b => a + b) 0) / (l.length : ℚ)

/-- `_calculate_position_size(equity, price, historical_data)`.  Only the last
`VOL_annualized` value and the trades so far are consulted, so those are the
parameters here.  The `np.mean([]) or 0.0` quirk on an empty loss list yields
NaN, and `NaN > 0` is False, which the nonempty-guard branch reproduces. -/
def BacktestEngine.calculate_position_size (eng : BacktestEngine)
    (vol_last : Option ℚ) (trades : List Trade) : ℚ :=
  match eng.risk_params.position_sizing with
  | .equal_weight => 1
  | .vol_target_10 =>
    match vol_last with
    | some current_vol =>
      if current_vol > 0 then min ((0.10 : ℚ) / current_vol) 1 else 1
    | none => 1
  | .kelly =>
    if 10 ≤ trades.length then
      let wins := trades.filter (fun t => t.pnl > 0)
      let win_rate : ℚ := (wins.length : ℚ) / (trades.length : ℚ)
      let avg_win : ℚ := if wins.isEmpty then 0 else listMean (wins.map (fun t => t.pnl_pct))
      let losses := trades.filter (fun t => t.pnl ≤ 0)
      if losses.isEmpty then 1
      else
        let avg_loss := listMean (losses.map (fun t => |t.pnl_pct|))
        if avg_loss > 0 ∧ avg_win > 0 then
          let kelly := (win_rate * avg_win - (1 - win_rate) * avg_loss) / avg_win
          max 0 (min (kelly * 0.5) 1)
        else 1
    else 1

/-- Result bundle of `_close_position` (the returned tuple plus the appended
trade ledger). -/
structure CloseResult where
  cash : ℚ
  equity : ℚ
  pnl : ℚ
  pnl_pct : ℚ
  trades : List Trade
deriving DecidableEq

/-- `_close_position(position, exit_price, exit_date, exit_reason, cash)`. -/
def BacktestEngine.close_position (_eng : BacktestEngine) (position : Position)
    (exit_price : ℚ) (exit_date : ℤ) (exit_reason : String) (cash : ℚ)
    (trades : List Trade) : CloseResult :=
  let shares := position.shares
  if shares ≤ 0 then ⟨cash, cash, 0, 0, trades⟩
  else
    let proceeds := exit_price * (shares : ℚ)
    let cash := cash + proceeds
    let pnl := (exit_price - position.entry_price) * (shares : ℚ)
    let pnl_pct := if position.entry_price ≠ 0 then exit_price / position.entry_price - 1 else 0
    let trade : Trade :=
      { entry_date := position.entry_date
        exit_date := exit_date
        entry_price := position.entry_price
        exit_price := exit_price
        shares := shares
        pnl := pnl
        pnl_pct := pnl_pct
        exit_reason := exit_reason
        holding_days := holding_days_fn position.entry_date exit_date
        partial_trade := false }
    ⟨cash, cash, pnl, pnl_pct, trades ++ [trade]⟩

/-- Set a flag to True in the partial-flags dict. -/
def setFlag (fl : List (String × Bool)) (key : String) : List (String × Bool) :=
  fl.map (fun p => if p.1 = key then (p.1, true) else p)

/-- State threaded through the `for rule in self.partial_rules` loop of
`_evaluate_partial_exits`. -/
structure PartialAux where
  closed : Bool
  cash : ℚ
  position : Position
  trades : List Trade
deriving DecidableEq

/-- The rule loop of `_evaluate_partial_exits`; `closed = true` breaks. -/
def BacktestEngine.partial_exits_loop (eng : BacktestEngine)
    (intraday_high : ℚ) (date : ℤ) :
    List PartialRule → Position → ℚ → List Trade → PartialAux
  | [], pos, cash, trades => ⟨false, cash, pos, trades⟩
  | rule :: rest, pos, cash, trades =>
    if (pos.partial_flags.lookup rule.flag).getD false then
      eng.partial_exits_loop intraday_high date rest pos cash trades
    else
      let target_price := pos.entry_price * (1 + rule.threshold)
      if intraday_high ≥ target_price then
        let shares_to_exit : ℤ :=
          if eng.is_korean_stock then pyInt ((pos.shares : ℚ) * rule.sell_pct)
          else ⌊(pos.shares : ℚ) * rule.sell_pct⌋
        if shares_to_exit ≤ 0 then
          eng.partial_exits_loop intraday_high date rest
            { pos with partial_flags := setFlag pos.partial_flags rule.flag } cash trades
        else
          let exit_price := eng.execute_exit_price target_price
          let cash := cash + exit_price * (shares_to_exit : ℚ)
          let pnl := (exit_price - pos.entry_price) * (shares_to_exit : ℚ)
          let pnl_pct := if pos.entry_price ≠ 0 then exit_price / pos.entry_price - 1 else 0
          let trade : Trade :=
            { entry_date := pos.entry_date
              exit_date := date
              entry_price := pos.entry_price
              exit_price := exit_price
              shares := shares_to_exit
              pnl := pnl
              pnl_pct := pnl_pct
              exit_reason := rule.flag
              holding_days := holding_days_fn pos.entry_date date
              partial_trade := true }
          let trades := trades ++ [trade]
          let pos :=
            { pos with
              shares := pos.shares - shares_to_exit
              invested_capital :=
                max 0 (pos.invested_capital - (shares_to_exit : ℚ) * pos.entry_price)
              partial_flags := setFlag pos.partial_flags rule.flag }
          if pos.shares ≤ 0 then ⟨true, cash, pos, trades⟩
          else eng.partial_exits_loop intraday_high date rest pos cash trades
      else
        eng.partial_exits_loop intraday_high date rest pos cash trades

/-- `_evaluate_partial_exits`: runs the rule loop and recomputes equity
(`cash` if fully closed, else marked to the close). -/
def BacktestEngine.evaluate_partial_exits (eng : BacktestEngine) (pos : Position)
    (intraday_high close_price : ℚ) (date : ℤ) (cash : ℚ) (trades : List Trade) :
    PartialAux × ℚ :=
  let r := eng.partial_exits_loop intraday_high date partial_rules pos cash trades
  (r, if r.closed then r.cash else r.cash + (r.position.shares : ℚ) * close_price)

/-- Bookkeeping shared by the three full-exit sites of the loop body
(pending exit at the open, stop-loss, take-profit): close the position,
then update cooldown and the consecutive-loss counters exactly as the
source does after each `_close_position` call. -/
def BacktestEngine.record_full_exit (eng : BacktestEngine) (pos : Position)
    (execution_price : ℚ) (date : ℤ) (reason : String) (st : RunState) : RunState :=
  let r := eng.close_position pos execution_price date reason st.cash st.trades
  let cooldown :=
    if r.pnl ≤ 0 ∧ 0 < eng.risk_params.cooldown_days_after_loss then
      max st.cooldown eng.risk_params.cooldown_days_after_loss
    else st.cooldown
  let consecutive_losses := if r.pnl > 0 then 0 else st.consecutive_losses + 1
  { st with
    cash := r.cash
    equity := r.equity
    trades := r.trades
    position := none
    pending_exit_idx := none
    cooldown := cooldown
    consecutive_losses := consecutive_losses
    max_consecutive_losses_observed :=
      max st.max_consecutive_losses_observed consecutive_losses }

/-- Loop block `if not trading_halted and equity <= drawdown_halt_level`. -/
def BacktestEngine.halt_check_step (eng : BacktestEngine) (bar : Bar)
    (st : RunState) : RunState :=
  if !st.trading_halted ∧ st.equity ≤ eng.drawdown_halt_level then
    { st with trading_halted := true, halt_date := some bar.date,
              warnings := st.warnings + 1 }
  else st

/-- Loop block `if position and pending_exit_idx == i`: exit at the adjusted
open. -/
def BacktestEngine.pending_exit_step (eng : BacktestEngine) (i : ℕ) (bar : Bar)
    (st : RunState) : RunState :=
  match st.position with
  | some pos =>
    if st.pending_exit_idx = some i then
      eng.record_full_exit pos (eng.execute_exit_price bar.open_price) bar.date
        "exit_signal_open" st
    else st
  | none => st

/-- Loop block `if position is None and pending_entry_idx == i and not
trading_halted and cooldown == 0`: open a position at the adjusted open when
sizing yields shares, else record a warning; either way clear the pending
entry. -/
def BacktestEngine.pending_entry_step (eng : BacktestEngine) (i : ℕ) (bar : Bar)
    (st : RunState) : RunState :=
  if st.position = none ∧ st.pending_entry_idx = some i ∧
      st.trading_halted = false ∧ st.cooldown = 0 then
    let entry_price := eng.execute_entry_price bar.open_price
    let r := eng.determine_shares st.cash st.equity entry_price
      st.pending_entry_fraction st.size_multiplier
    if 0 < r.1 then
      let pos : Position :=
        { shares := r.1
          entry_price := entry_price
          entry_date := bar.date
          stop_loss := entry_price * (1 - eng.risk_params.stop_pct)
          take_profit := entry_price * (1 + eng.risk_params.take_pct)
          highest_price := entry_price
          invested_capital := r.2.1
          pending_exit := false
          partial_flags := partial_rules.map (fun rule => (rule.flag, false)) }
      { st with position := some pos, cash := st.cash - r.2.1, pending_entry_idx := none }
    else
      { st with warnings := st.warnings + 1, pending_entry_idx := none }
  else st

/-- Loop block `if position:` — ratchet the high, raise the trailing stop,
evaluate partial exits, then stop-loss / take-profit / mark-to-close; the
`else` branch sets `equity = cash`. -/
def BacktestEngine.manage_position_step (eng : BacktestEngine) (bar : Bar)
    (st : RunState) : RunState :=
  match st.position with
  | none => { st with equity := st.cash }
  | some pos0 =>
    let pos1 := if bar.high_price > pos0.highest_price
      then { pos0 with highest_price := bar.high_price } else pos0
    let trailing_stop := pos1.highest_price * (1 - eng.risk_params.trailing_pct)
    let pos := if trailing_stop > pos1.stop_loss
      then { pos1 with stop_loss := trailing_stop } else pos1
    let pr := eng.evaluate_partial_exits pos bar.high_price bar.close_price
      bar.date st.cash st.trades
    if pr.1.closed then
      { st with cash := pr.1.cash, equity := pr.2, trades := pr.1.trades,
                position := none, pending_exit_idx := none }
    else
      let st1 := { st with cash := pr.1.cash, equity := pr.2, trades := pr.1.trades,
                           position := some pr.1.position }
      if bar.low_price ≤ pr.1.position.stop_loss then
        eng.record_full_exit pr.1.position
          (eng.execute_exit_price pr.1.position.stop_loss) bar.date "stop_loss" st1
      else if bar.high_price ≥ pr.1.position.take_profit then
        eng.record_full_exit pr.1.position
          (eng.execute_exit_price pr.1.position.take_profit) bar.date "take_profit" st1
      else st1

/-- Python truthiness of `not pending_exit_idx` (None and 0 are falsy). -/
def pendingExitFalsy : Option ℕ → Bool
  | none => true
  | some k => k == 0

/-- Loop block `if position and not pending_exit_idx and exit_signals.iloc[i]
and i + 1 < len(dates)`: arm a pending exit for the next bar. -/
def BacktestEngine.arm_exit_step (eng : BacktestEngine) (n i : ℕ)
    (st : RunState) : RunState :=
  match st.position with
  | some pos =>
    if pendingExitFalsy st.pending_exit_idx ∧ eng.exit_signals.getD i false ∧ i + 1 < n then
      { st with pending_exit_idx := some (i + 1),
                position := some { pos with pending_exit := true } }
    else st
  | none => st

/-- Loop block arming a pending entry for the next bar when flat, unarmed,
not halted, not cooling down, and the entry signal is set. -/
def BacktestEngine.arm_entry_step (eng : BacktestEngine) (n i : ℕ) (bar : Bar)
    (st : RunState) : RunState :=
  if st.position = none ∧ st.pending_entry_idx = none ∧
      st.trading_halted = false ∧ st.cooldown = 0 ∧ i + 1 < n ∧
      eng.entry_signals.getD i false then
    let position_fraction := eng.calculate_position_size bar.vol_annualized st.trades
    { st with pending_entry_idx := some (i + 1),
              pending_entry_fraction := max 0 (min 1 position_fraction) }
  else st

/-- Loop block computing the daily return, appending to the histories, and
arming a cooldown on a daily-loss-limit breach. -/
def BacktestEngine.daily_update_step (eng : BacktestEngine)
    (st : RunState) : RunState :=
  let daily_return :=
    if st.previous_equity ≠ 0 then (st.equity - st.previous_equity) / st.previous_equity else 0
  let st1 := { st with daily_returns := st.daily_returns ++ [daily_return],
                       equity_history := st.equity_history ++ [st.equity],
                       previous_equity := st.equity }
  if daily_return ≤ -eng.risk_params.daily_loss_limit_pct ∧
      0 < eng.risk_params.cooldown_days_after_loss then
    { st1 with cooldown := max st1.cooldown eng.risk_params.cooldown_days_after_loss,
               warnings := st1.warnings + 1 }
  else st1

/-- Loop block scaling future position sizes down once equity reaches the
scale-down buffer. -/
def BacktestEngine.scale_down_step (eng : BacktestEngine) (st : RunState) : RunState :=
  if st.scale_down_active = false ∧ 0 < eng.risk_params.scale_down_after_drawdown_pct ∧
      st.equity ≤ eng.scale_down_level then
    { st with scale_down_active := true,
              size_multiplier := eng.risk_params.scale_down_factor,
              warnings := st.warnings + 1 }
  else st

/-- Loop block arming a cooldown and resetting the counter when the
consecutive-loss limit is reached. -/
def BacktestEngine.consecutive_loss_step (eng : BacktestEngine)
    (st : RunState) : RunState :=
  if eng.risk_params.max_consecutive_losses ≤ st.consecutive_losses ∧
      0 < eng.risk_params.max_consecutive_losses then
    let st1 :=
      if 0 < eng.risk_params.cooldown_days_after_loss then
        { st with cooldown := max st.cooldown eng.risk_params.cooldown_days_after_loss }
      else st
    { st1 with warnings := st1.warnings + 1, consecutive_losses := 0 }
  else st

/-- Loop block `if cooldown > 0: cooldown -= 1`. -/
def cooldown_decrement_step (st : RunState) : RunState :=
  if 0 < st.cooldown then { st with cooldown := st.cooldown - 1 } else st

/-- One iteration of the `for i, date in enumerate(dates)` loop.  A bar with
missing OHLC is skipped: equity carried forward, zero daily return, warning
recorded, nothing else happens. -/
def BacktestEngine.process_bar (eng : BacktestEngine) (n i : ℕ) (bar : Bar)
    (st : RunState) : RunState :=
  if bar.has_na then
    { st with warnings := st.warnings + 1,
              equity_history := st.equity_history ++ [st.equity],
              daily_returns := st.daily_returns ++ [0] }
  else
    cooldown_decrement_step
      (eng.consecutive_loss_step
        (eng.scale_down_step
          (eng.daily_update_step
            (eng.arm_entry_step n i bar
              (eng.arm_exit_step n i
                (eng.manage_position_step bar
                  (eng.pending_entry_step i bar
                    (eng.pending_exit_step i bar
                      (eng.halt_check_step bar st)))))))))

/-- The loop over bars `i, i+1, ...` (indices follow `enumerate`). -/
def BacktestEngine.run_from (eng : BacktestEngine) (n : ℕ) :
    ℕ → List Bar → RunState → RunState
  | _, [], st => st
  | i, bar :: rest, st => eng.run_from n (i + 1) rest (eng.process_bar n i bar st)

/-- State after the whole loop. -/
def BacktestEngine.loop_state (eng : BacktestEngine) : RunState :=
  eng.run_from eng.data.length 0 eng.data eng.init_state

/-- Overwrite the last element, `equity_history[-1] = equity`. -/
def setLast (l : List ℚ) (x : ℚ) : List ℚ :=
  match l with
  | [] => []
  | _ :: _ => l.dropLast ++ [x]

/-- The post-loop block: force-close any open position at the adjusted final
close, update the loss counters, and overwrite the last equity point. -/
def BacktestEngine.finalize (eng : BacktestEngine) (st : RunState) : RunState :=
  match st.position, eng.data.getLast? with
  | some pos, some lastBar =>
    let r := eng.close_position pos (eng.execute_exit_price lastBar.close_price)
      lastBar.date "final_exit" st.cash st.trades
    let consecutive_losses := if r.pnl > 0 then 0 else st.consecutive_losses + 1
    { st with
      cash := r.cash
      equity := r.equity
      trades := r.trades
      position := none
      consecutive_losses := consecutive_losses
      max_consecutive_losses_observed :=
        max st.max_consecutive_losses_observed consecutive_losses
      equity_history := setLast st.equity_history r.equity }
  | _, _ => st

/-- `BacktestEngine.run()` up to the returned trade ledger, equity curve and
risk summary (the `BacktestMetrics` aggregation — CAGR, Sharpe, … — involves
real-valued powers and is not needed by any claim, so it is not embedded). -/
def BacktestEngine.run (eng : BacktestEngine) : RunState :=
  eng.finalize eng.loop_state

/-- State after processing the first `k` bars of the loop (before the
post-loop block). -/
def BacktestEngine.state_after (eng : BacktestEngine) (k : ℕ) : RunState :=
  eng.run_from eng.data.length 0 (eng.data.take k) eng.init_state

/-! ### A concrete two-bar run (used for claim C1)

Flat prices at 100, an entry signal on bar 0, no exit signal.  The entry
fills at bar 1's open and the position is force-closed at bar 1's close, so
the recorded trade has `exit_date = entry_date`. -/

/-- Valid RiskParams: defaults except equal-weight sizing, stop 8%,
take 1000%. -/
def cex_params : RiskParams :=
  { stop_pct := 0.08, take_pct := 10, position_sizing := .equal_weight,
    trailing_pct := 0.10, max_risk_per_trade_pct := 0.02,
    max_portfolio_drawdown_pct := 0.30, daily_loss_limit_pct := 0.05,
    cooldown_days_after_loss := 2, max_consecutive_losses := 3,
    scale_down_after_drawdown_pct := 0.10, scale_down_factor := 0.5,
    risk_free_rate := 0.015 }

/-- A clean flat bar priced 100 throughout. -/
def flat_bar (d : ℤ) : Bar := ⟨d, 100, 100, 100, 100, none, false⟩

/-- Two flat bars, entry signalled on bar 0, zero slippage and cost. -/
def cex_engine : BacktestEngine :=
  { data := [flat_bar 0, flat_bar 1],
    entry_signals := [true, false],
    exit_signals := [false, false],
    risk_params := cex_params,
    transaction_cost := 0, slippage := 0,
    initial_capital := 100000, is_korean_stock := false }

/-- State after bar 0: an entry armed for bar 1. -/
def cexSa : RunState :=
  { cex_engine.init_state with pending_entry_idx := some 1, pending_entry_fraction := 1 }

/-- State at the end of bar 0. -/
def cexS1 : RunState :=
  { cexSa with equity_history := [100000], daily_returns := [0] }

/-- The position opened at bar 1's open: 250 shares (risk budget
100000·2% / (100·8%)), stop 92, take 1100. -/
def cexPos : Position :=
  { shares := 250, entry_price := 100, entry_date := 1, stop_loss := 92,
    take_profit := 1100, highest_price := 100, invested_capital := 25000,
    pending_exit := false,
    partial_flags := [("partial_20", false), ("partial_40", false)] }

/-- State after bar 1's entry fill. -/
def cexS2a : RunState :=
  { cexS1 with position := some cexPos, cash := 75000, pending_entry_idx := none }

/-- State at the end of bar 1 (loop end). -/
def cexS2 : RunState :=
  { cexS2a with equity_history := [100000, 100000], daily_returns := [0, 0] }

/-- The force-closed trade: entered and exited on bar 1. -/
def cexTrade : Trade :=
  { entry_date := 1, exit_date := 1, entry_price := 100, exit_price := 100,
    shares := 250, pnl := 0, pnl_pct := 0, exit_reason := "final_exit",
    holding_days := 0, partial_trade := false }

/-- Final state after the post-loop force close. -/
def cexSF : RunState :=
  { cexS2 with
    cash := 100000
    equity := 100000
    trades := [cexTrade]
    position := none
    consecutive_losses := 1
    max_consecutive_losses_observed := 1 }

lemma c1cex_bar0 :
    cex_engine.process_bar 2 0 (flat_bar 0) cex_engine.init_state = cexS1 := by
  have h1 : cex_engine.halt_check_step (flat_bar 0) cex_engine.init_state =
      cex_engine.init_state := by
    norm_num [BacktestEngine.halt_check_step, BacktestEngine.drawdown_halt_level,
      cex_engine, cex_params, flat_bar, BacktestEngine.init_state]
  have h2 : cex_engine.pending_exit_step 0 (flat_bar 0) cex_engine.init_state =
      cex_engine.init_state := by
    norm_num [BacktestEngine.pending_exit_step, cex_engine, cex_params, flat_bar,
      BacktestEngine.init_state]
  have h3 : cex_engine.pending_entry_step 0 (flat_bar 0) cex_engine.init_state =
      cex_engine.init_state := by
    norm_num [BacktestEngine.pending_entry_step, cex_engine, cex_params, flat_bar,
      BacktestEngine.init_state]
    all_goals simp
  have h4 : cex_engine.manage_position_step (flat_bar 0) cex_engine.init_state =
      cex_engine.init_state := by
    norm_num [BacktestEngine.manage_position_step, cex_engine, cex_params, flat_bar,
      BacktestEngine.init_state]
  have h5 : cex_engine.arm_exit_step 2 0 cex_engine.init_state =
      cex_engine.init_state := by
    norm_num [BacktestEngine.arm_exit_step, cex_engine, cex_params,
      BacktestEngine.init_state]
  have h6 : cex_engine.arm_entry_step 2 0 (flat_bar 0) cex_engine.init_state = cexSa := by
    norm_num [BacktestEngine.arm_entry_step, cex_engine, cex_params, flat_bar,
      BacktestEngine.init_state, BacktestEngine.calculate_position_size, cexSa]
  have h7 : cex_engine.daily_update_step cexSa = cexS1 := by
    norm_num [BacktestEngine.daily_update_step, cex_engine, cex_params, cexSa, cexS1,
      BacktestEngine.init_state]
  have h8 : cex_engine.scale_down_step cexS1 = cexS1 := by
    norm_num [BacktestEngine.scale_down_step, BacktestEngine.scale_down_level,
      cex_engine, cex_params, cexS1, cexSa, BacktestEngine.init_state]
  have h9 : cex_engine.consecutive_loss_step cexS1 = cexS1 := by
    norm_num [BacktestEngine.consecutive_loss_step, cex_engine, cex_params, cexS1,
      cexSa, BacktestEngine.init_state]
  have h10 : cooldown_decrement_step cexS1 = cexS1 := by
    norm_num [cooldown_decrement_step, cexS1, cexSa, BacktestEngine.init_state]
  have hna : (flat_bar 0).has_na = false := rfl
  rw [BacktestEngine.process_bar, hna]
  simp only [Bool.false_eq_true, if_false]
  rw [h1, h2, h3, h4, h5, h6, h7, h8, h9, h10]

lemma c1cex_bar1 :
    cex_engine.process_bar 2 1 (flat_bar 1) cexS1 = cexS2 := by
  have h1 : cex_engine.halt_check_step (flat_bar 1) cexS1 = cexS1 := by
    norm_num [BacktestEngine.halt_check_step, BacktestEngine.drawdown_halt_level,
      cex_engine, cex_params, flat_bar, cexS1, cexSa, BacktestEngine.init_state]
  have h2 : cex_engine.pending_exit_step 1 (flat_bar 1) cexS1 = cexS1 := by
    norm_num [BacktestEngine.pending_exit_step, cex_engine, cex_params, flat_bar,
      cexS1, cexSa, BacktestEngine.init_state]
  have h3 : cex_engine.pending_entry_step 1 (flat_bar 1) cexS1 = cexS2a := by
    norm_num [BacktestEngine.pending_entry_step, cex_engine, cex_params, flat_bar,
      cexS1, cexSa, cexS2a, cexPos, BacktestEngine.init_state,
      BacktestEngine.determine_shares, BacktestEngine.execute_entry_price,
      round_to_tick_up, partial_rules, min_def]
  have h4 : cex_engine.manage_position_step (flat_bar 1) cexS2a = cexS2a := by
    norm_num [BacktestEngine.manage_position_step, cex_engine, cex_params, flat_bar,
      cexS2a, cexS1, cexSa, cexPos, BacktestEngine.init_state,
      BacktestEngine.evaluate_partial_exits, BacktestEngine.partial_exits_loop,
      partial_rules, BacktestEngine.execute_exit_price, round_to_tick_down,
      setFlag, pyInt]
  have h5 : cex_engine.arm_exit_step 2 1 cexS2a = cexS2a := by
    norm_num [BacktestEngine.arm_exit_step, cex_engine, cex_params, cexS2a, cexS1,
      cexSa, BacktestEngine.init_state, pendingExitFalsy]
  have h6 : cex_engine.arm_entry_step 2 1 (flat_bar 1) cexS2a = cexS2a := by
    norm_num [BacktestEngine.arm_entry_step, cex_engine, cex_params, flat_bar,
      cexS2a, cexS1, cexSa, BacktestEngine.init_state]
  have h7 : cex_engine.daily_update_step cexS2a = cexS2 := by
    norm_num [BacktestEngine.daily_update_step, cex_engine, cex_params, cexS2a,
      cexS2, cexS1, cexSa, BacktestEngine.init_state]
  have h8 : cex_engine.scale_down_step cexS2 = cexS2 := by
    norm_num [BacktestEngine.scale_down_step, BacktestEngine.scale_down_level,
      cex_engine, cex_params, cexS2, cexS2a, cexS1, cexSa, BacktestEngine.init_state]
  have h9 : cex_engine.consecutive_loss_step cexS2 = cexS2 := by
    norm_num [BacktestEngine.consecutive_loss_step, cex_engine, cex_params, cexS2,
      cexS2a, cexS1, cexSa, BacktestEngine.init_state]
  have h10 : cooldown_decrement_step cexS2 = cexS2 := by
    norm_num [cooldown_decrement_step, cexS2, cexS2a, cexS1, cexSa,
      BacktestEngine.init_state]
  have hna : (flat_bar 1).has_na = false := rfl
  rw [BacktestEngine.process_bar, hna]
  simp only [Bool.false_eq_true, if_false]
  rw [h1, h2, h3, h4, h5, h6, h7, h8, h9, h10]

lemma c1cex_run : cex_engine.run = cexSF := by
  have hl : cex_engine.loop_state = cexS2 := by
    show cex_engine.run_from 2 1 [flat_bar 1]
      (cex_engine.process_bar 2 0 (flat_bar 0) cex_engine.init_state) = cexS2
    rw [c1cex_bar0]
    show cex_engine.process_bar 2 1 (flat_bar 1) cexS1 = cexS2
    exact c1cex_bar1
  rw [BacktestEngine.run, hl]
  norm_num [BacktestEngine.finalize, cexS2, cexS2a, cexS1, cexSa, cexPos,
    BacktestEngine.init_state, cex_engine, cex_params, flat_bar,
    BacktestEngine.close_position, BacktestEngine.execute_exit_price,
    round_to_tick_down, holding_days_fn, setLast, cexSF, cexTrade]

/-! ### Loop machinery: splitting the bar loop, date ordering -/

/-- Sum of `pnl` over a trade ledger. -/
def sumPnl (l : List Trade) : ℚ := (l.map (fun t => t.pnl)).sum

lemma sumPnl_append (a b : List Trade) : sumPnl (a ++ b) = sumPnl a + sumPnl b := by
  simp [sumPnl]

lemma run_from_append (eng : BacktestEngine) (n : ℕ) (l1 l2 : List Bar) :
    ∀ (i : ℕ) (st : RunState),
      eng.run_from n i (l1 ++ l2) st =
        eng.run_from n (i + l1.length) l2 (eng.run_from n i l1 st) := by
  induction l1 with
  | nil => intro i st; simp [BacktestEngine.run_from]
  | cons bar rest ih =>
    intro i st
    show eng.run_from n (i + 1) (rest ++ l2) (eng.process_bar n i bar st) =
      eng.run_from n (i + (bar :: rest).length) l2
        (eng.run_from n (i + 1) rest (eng.process_bar n i bar st))
    rw [ih]
    have h : i + 1 + rest.length = i + (bar :: rest).length := by
      simp only [List.length_cons]
      omega
    rw [h]

lemma state_after_succ (eng : BacktestEngine) (k : ℕ) (bar : Bar)
    (hk : eng.data[k]? = some bar) :
    eng.state_after (k + 1) =
      eng.process_bar eng.data.length k bar (eng.state_after k) := by
  have hlt : k < eng.data.length := by
    rcases List.getElem?_eq_some.mp hk with ⟨h, _⟩
    exact h
  unfold BacktestEngine.state_after
  rw [List.take_succ, hk, run_from_append]
  have hlen : (eng.data.take k).length = k := by
    simp [List.length_take, Nat.min_eq_left hlt.le]
  rw [hlen]
  simp only [Option.toList_some, Nat.zero_add]
  rfl

/-- Ordering hypothesis: data sorted ascending by date (`sort_index`; one bar
per trading day). -/
def SortedBars (l : List Bar) : Prop :=
  l.Pairwise (fun a b => a.date ≤ b.date)

lemma mem_date_le_getLast (l : List Bar) (hl : SortedBars l) (hne : l ≠ []) :
    ∀ x ∈ l, x.date ≤ (l.getLast hne).date := by
  induction l with
  | nil => exact absurd rfl hne
  | cons a rest ih =>
    intro x hx
    cases rest with
    | nil =>
      simp only [List.mem_singleton] at hx
      subst hx
      exact le_refl _
    | cons b rest2 =>
      have hpw := hl
      rw [SortedBars, List.pairwise_cons] at hpw
      rcases List.mem_cons.mp hx with rfl | hx2
      · have hmem : (b :: rest2).getLast (by simp) ∈ b :: rest2 := List.getLast_mem _
        have := hpw.1 _ hmem
        simpa [List.getLast_cons] using this
      · have := ih hpw.2 (by simp) x hx2
        simpa [List.getLast_cons] using this

/-- Generic preservation of a date-indexed invariant along the bar loop. -/
lemma run_from_preserve (eng : BacktestEngine) (P : ℤ → RunState → Prop)
    (mono : ∀ b c st, b ≤ c → P b st → P c st)
    (step : ∀ n i bar st b, P b st → b ≤ bar.date →
      P bar.date (eng.process_bar n i bar st)) :
    ∀ (l : List Bar) (n i : ℕ) (st : RunState) (b c : ℤ),
      P b st → (∀ x ∈ l, b ≤ x.date) → SortedBars l → b ≤ c →
      (∀ x ∈ l, x.date ≤ c) → P c (eng.run_from n i l st) := by
  intro l
  induction l with
  | nil =>
    intro n i st b c hP _ _ hbc _
    exact mono b c st hbc hP
  | cons bar rest ih =>
    intro n i st b c hP hlb hsorted hbc hub
    have hpw := hsorted
    rw [SortedBars, List.pairwise_cons] at hpw
    have hbar : b ≤ bar.date := hlb bar (List.mem_cons_self _ _)
    have hstep := step n i bar st b hP hbar
    simp only [BacktestEngine.run_from]
    exact ih n (i + 1) _ bar.date c hstep
      (fun x hx => hpw.1 x hx)
      hpw.2
      (hub bar (List.mem_cons_self _ _))
      (fun x hx => hub x (List.mem_cons.mpr (Or.inr hx)))

/-! ### Spec of the partial-exit rule loop -/

/-- What one pass of `_evaluate_partial_exits`' rule loop guarantees: it never
fully closes the position (each rule sells at most half of a positive share
count, and a zero sale only sets the flag), it preserves every position field
except `shares`, `invested_capital` and the flags, it preserves the quantity
`cash + shares·entry_price − Σpnl`, and every trade it appends is a partial
trade on the current bar carrying the position's entry date. -/
def PartialSpec (pos : Position) (cash : ℚ) (trades : List Trade) (date : ℤ)
    (r : PartialAux) : Prop :=
  r.closed = false ∧ 0 < r.position.shares ∧
  r.position.entry_price = pos.entry_price ∧
  r.position.entry_date = pos.entry_date ∧
  r.position.stop_loss = pos.stop_loss ∧
  r.position.highest_price = pos.highest_price ∧
  r.position.take_profit = pos.take_profit ∧
  r.cash + (r.position.shares : ℚ) * pos.entry_price - sumPnl r.trades =
    cash + (pos.shares : ℚ) * pos.entry_price - sumPnl trades ∧
  ∀ Q : Trade → Prop, (∀ t ∈ trades, Q t) →
    (∀ t : Trade, t.entry_date = pos.entry_date → t.exit_date = date →
      t.holding_days = date - pos.entry_date → t.partial_trade = true → Q t) →
    ∀ t ∈ r.trades, Q t

lemma partial_exits_loop_spec (eng : BacktestEngine) (hi : ℚ) (date : ℤ) :
    ∀ (rules : List PartialRule) (pos : Position) (cash : ℚ) (trades : List Trade),
      (∀ r ∈ rules, r.sell_pct = (0.50 : ℚ) ∨ r.sell_pct = (0.25 : ℚ)) →
      0 < pos.shares →
      PartialSpec pos cash trades date
        (eng.partial_exits_loop hi date rules pos cash trades) := by
  intro rules
  induction rules with
  | nil =>
    intro pos cash trades _ hS
    simp only [BacktestEngine.partial_exits_loop]
    exact ⟨rfl, hS, rfl, rfl, rfl, rfl, rfl, rfl, fun Q hQ _ => hQ⟩
  | cons rule rest ih =>
    intro pos cash trades hrules hS
    have hrule := hrules rule (List.mem_cons_self _ _)
    have hrest : ∀ r ∈ rest, r.sell_pct = (0.50 : ℚ) ∨ r.sell_pct = (0.25 : ℚ) :=
      fun r hr => hrules r (List.mem_cons.mpr (Or.inr hr))
    simp only [BacktestEngine.partial_exits_loop]
    split
    · exact ih pos cash trades hrest hS
    · split
      · -- intraday high reached the target
        have hpct0 : 0 < rule.sell_pct := by rcases hrule with h | h <;> rw [h] <;> norm_num
        have hpct1 : rule.sell_pct < 1 := by rcases hrule with h | h <;> rw [h] <;> norm_num
        have hx0 : (0 : ℚ) ≤ (pos.shares : ℚ) * rule.sell_pct := by
          have h1 : (0 : ℚ) ≤ (pos.shares : ℚ) := by exact_mod_cast hS.le
          positivity
        have hkfloor :
            (if eng.is_korean_stock then pyInt ((pos.shares : ℚ) * rule.sell_pct)
             else ⌊(pos.shares : ℚ) * rule.sell_pct⌋) = ⌊(pos.shares : ℚ) * rule.sell_pct⌋ := by
          split
          · exact if_pos hx0
          · rfl
        have hklt : ⌊(pos.shares : ℚ) * rule.sell_pct⌋ < pos.shares := by
          rw [Int.floor_lt]
          have hq : (pos.shares : ℚ) * rule.sell_pct < (pos.shares : ℚ) * 1 :=
            mul_lt_mul_of_pos_left hpct1 (by exact_mod_cast hS)
          simpa using hq
        rw [hkfloor]
        split
        · -- zero-share sale: only the flag is set
          have := ih { pos with partial_flags := setFlag pos.partial_flags rule.flag }
            cash trades hrest hS
          simpa [PartialSpec] using this
        · -- a positive partial sale
          next hkpos =>
          have hS2 : 0 < pos.shares - ⌊(pos.shares : ℚ) * rule.sell_pct⌋ := by omega
          rw [if_neg (by omega)]
          have hspec := ih
            { pos with
              shares := pos.shares - ⌊(pos.shares : ℚ) * rule.sell_pct⌋
              invested_capital := max 0 (pos.invested_capital -
                ((⌊(pos.shares : ℚ) * rule.sell_pct⌋ : ℤ) : ℚ) * pos.entry_price)
              partial_flags := setFlag pos.partial_flags rule.flag }
            (cash + eng.execute_exit_price (pos.entry_price * (1 + rule.threshold)) *
              ((⌊(pos.shares : ℚ) * rule.sell_pct⌋ : ℤ) : ℚ))
            (trades ++ [{ entry_date := pos.entry_date
                          exit_date := date
                          entry_price := pos.entry_price
                          exit_price := eng.execute_exit_price (pos.entry_price * (1 + rule.threshold))
                          shares := ⌊(pos.shares : ℚ) * rule.sell_pct⌋
                          pnl := (eng.execute_exit_price (pos.entry_price * (1 + rule.threshold)) -
                            pos.entry_price) * ((⌊(pos.shares : ℚ) * rule.sell_pct⌋ : ℤ) : ℚ)
                          pnl_pct := if pos.entry_price ≠ 0 then
                            eng.execute_exit_price (pos.entry_price * (1 + rule.threshold)) /
                              pos.entry_price - 1 else 0
                          exit_reason := rule.flag
                          holding_days := holding_days_fn pos.entry_date date
                          partial_trade := true }])
            hrest hS2
          obtain ⟨hc, hsh, hep, hed, hsl, hhp, htp, hcash, hdates⟩ := hspec
          refine ⟨hc, hsh, by simpa using hep, by simpa using hed, by simpa using hsl,
            by simpa using hhp, by simpa using htp, ?_, ?_⟩
          · simp only [] at hcash
            rw [hcash, sumPnl_append]
            simp only [sumPnl, List.map_cons, List.map_nil, List.sum_cons, List.sum_nil]
            push_cast
            ring
          · intro Q hQold hQnew t ht
            refine hdates Q ?_ ?_ t ht
            · intro t2 ht2
              rcases List.mem_append.mp ht2 with h1 | h2
              · exact hQold t2 h1
              · simp only [List.mem_singleton] at h2
                subst h2
                exact hQnew _ rfl rfl rfl rfl
            · intro t2 h1 h2 h3 h4
              exact hQnew t2 (by simpa using h1) h2 (by simpa using h3) h4
      · exact ih pos cash trades hrest hS

lemma partial_rules_pct : ∀ r ∈ partial_rules, r.sell_pct = (0.50 : ℚ) ∨ r.sell_pct = (0.25 : ℚ) := by
  intro r hr
  simp only [partial_rules, List.mem_cons, List.mem_singleton] at hr
  rcases hr with rfl | rfl | h
  · exact Or.inl rfl
  · exact Or.inr rfl
  · exact absurd h (by simp)

/-! ### Dates invariant (claims C1 and C2)

Along the loop, every recorded trade satisfies `entry_date ≤ exit_date` and
`holding_days = exit_date − entry_date`; any open position was entered no
later than the current bar and holds a positive share count; and once trading
halts, `halt_date` records the halting bar's date, which bounds the entry
date of every trade ever recorded, past or future. -/
def DatesInv (b : ℤ) (st : RunState) : Prop :=
  (∀ t ∈ st.trades, t.entry_date ≤ t.exit_date ∧
    t.holding_days = t.exit_date - t.entry_date ∧ t.entry_date ≤ b) ∧
  (∀ p, st.position = some p → p.entry_date ≤ b) ∧
  (∀ p, st.position = some p → 0 < p.shares) ∧
  (st.trading_halted = true → ∃ d, st.halt_date = some d ∧ d ≤ b ∧
    (∀ t ∈ st.trades, t.entry_date ≤ d) ∧
    (∀ p, st.position = some p → p.entry_date ≤ d)) ∧
  (st.trading_halted = false → st.halt_date = none)

lemma datesInv_mono (b c : ℤ) (st : RunState) (hbc : b ≤ c) (h : DatesInv b st) :
    DatesInv c st := by
  obtain ⟨h1, h2, h5, h3, h4⟩ := h
  refine ⟨fun t ht => ?_, fun p hp => le_trans (h2 p hp) hbc, h5, fun hh => ?_, h4⟩
  · obtain ⟨a, b', c'⟩ := h1 t ht
    exact ⟨a, b', le_trans c' hbc⟩
  · obtain ⟨d, hd, hdb, hdt, hdp⟩ := h3 hh
    exact ⟨d, hd, le_trans hdb hbc, hdt, hdp⟩

lemma datesInv_congr (d : ℤ) (st st' : RunState)
    (ht : st'.trades = st.trades) (hp : st'.position = st.position)
    (hh : st'.trading_halted = st.trading_halted) (hd : st'.halt_date = st.halt_date)
    (h : DatesInv d st) : DatesInv d st' := by
  unfold DatesInv
  rw [ht, hp, hh, hd]
  exact h

lemma dates_halt_check (eng : BacktestEngine) (bar : Bar) (st : RunState)
    (h : DatesInv bar.date st) : DatesInv bar.date (eng.halt_check_step bar st) := by
  obtain ⟨h1, h2, h5, h3, h4⟩ := h
  unfold BacktestEngine.halt_check_step
  split
  · exact ⟨h1, h2, h5, fun _ =>
      ⟨bar.date, rfl, le_refl _, fun t ht => (h1 t ht).2.2, h2⟩, by simp⟩
  · exact ⟨h1, h2, h5, h3, h4⟩

lemma dates_record_full_exit (eng : BacktestEngine) (pos : Position) (x : ℚ)
    (reason : String) (d : ℤ) (st : RunState)
    (h1 : ∀ t ∈ st.trades, t.entry_date ≤ t.exit_date ∧
      t.holding_days = t.exit_date - t.entry_date ∧ t.entry_date ≤ d)
    (hpos : pos.entry_date ≤ d)
    (h3 : st.trading_halted = true → ∃ e, st.halt_date = some e ∧ e ≤ d ∧
      (∀ t ∈ st.trades, t.entry_date ≤ e) ∧ pos.entry_date ≤ e)
    (h4 : st.trading_halted = false → st.halt_date = none) :
    DatesInv d (eng.record_full_exit pos x d reason st) := by
  simp only [BacktestEngine.record_full_exit, BacktestEngine.close_position]
  split
  · -- shares ≤ 0: no trade appended
    refine ⟨h1, by simp, by simp, fun hh => ?_, h4⟩
    obtain ⟨e, he, hed, het, _⟩ := h3 hh
    exact ⟨e, he, hed, het, by simp⟩
  · -- trade appended
    refine ⟨?_, by simp, by simp, fun hh => ?_, h4⟩
    · intro t ht
      rcases List.mem_append.mp ht with hold | hnew
      · exact h1 t hold
      · simp only [List.mem_singleton] at hnew
        subst hnew
        exact ⟨hpos, rfl, hpos⟩
    · obtain ⟨e, he, hed, het, hpe⟩ := h3 hh
      refine ⟨e, he, hed, ?_, by simp⟩
      intro t ht
      rcases List.mem_append.mp ht with hold | hnew
      · exact het t hold
      · simp only [List.mem_singleton] at hnew
        subst hnew
        exact hpe

lemma dates_pending_exit (eng : BacktestEngine) (i : ℕ) (bar : Bar) (st : RunState)
    (h : DatesInv bar.date st) : DatesInv bar.date (eng.pending_exit_step i bar st) := by
  obtain ⟨h1, h2, h5, h3, h4⟩ := h
  unfold BacktestEngine.pending_exit_step
  cases hpos : st.position with
  | none =>
    simp only [hpos]
    exact ⟨h1, h2, h5, h3, h4⟩
  | some pos =>
    simp only [hpos]
    split
    · refine dates_record_full_exit eng pos _ _ bar.date st h1 (h2 pos hpos) ?_ h4
      intro hh
      obtain ⟨e, he, hed, het, hpe⟩ := h3 hh
      exact ⟨e, he, hed, het, hpe pos hpos⟩
    · exact ⟨h1, h2, h5, h3, h4⟩

lemma dates_pending_entry (eng : BacktestEngine) (i : ℕ) (bar : Bar) (st : RunState)
    (h : DatesInv bar.date st) : DatesInv bar.date (eng.pending_entry_step i bar st) := by
  obtain ⟨h1, h2, h5, h3, h4⟩ := h
  unfold BacktestEngine.pending_entry_step
  split
  · next hcond =>
    dsimp only
    split
    · next hshares =>
      refine ⟨h1, ?_, ?_, fun hh => ?_, h4⟩
      · intro p hp
        simp only [Option.some_inj] at hp
        subst hp
        exact le_refl _
      · intro p hp
        simp only [Option.some_inj] at hp
        subst hp
        exact hshares
      · rw [hcond.2.2.1] at hh
        exact absurd hh (by simp)
    · exact ⟨h1, by simpa using h2, by simpa using h5, by simpa using h3, h4⟩
  · exact ⟨h1, h2, h5, h3, h4⟩

lemma dates_manage (eng : BacktestEngine) (bar : Bar) (st : RunState)
    (h : DatesInv bar.date st) : DatesInv bar.date (eng.manage_position_step bar st) := by
  obtain ⟨h1, h2, h5, h3, h4⟩ := h
  unfold BacktestEngine.manage_position_step BacktestEngine.evaluate_partial_exits
  cases hpos : st.position with
  | none =>
    simp only [hpos]
    refine ⟨h1, by simp, by simp, fun hh => ?_, h4⟩
    obtain ⟨e, he, hed, het, _⟩ := h3 hh
    exact ⟨e, he, hed, het, by simp⟩
  | some pos0 =>
    simp only [hpos]
    have hS0 : 0 < pos0.shares := h5 pos0 hpos
    have hed0 : pos0.entry_date ≤ bar.date := h2 pos0 hpos
    set pos1 := if bar.high_price > pos0.highest_price
      then { pos0 with highest_price := bar.high_price } else pos0 with hpos1
    have hsh1 : pos1.shares = pos0.shares := by rw [hpos1]; split <;> rfl
    have hed1 : pos1.entry_date = pos0.entry_date := by rw [hpos1]; split <;> rfl
    set pos2 := if pos1.highest_price * (1 - eng.risk_params.trailing_pct) > pos1.stop_loss
      then { pos1 with stop_loss := pos1.highest_price * (1 - eng.risk_params.trailing_pct) }
      else pos1 with hpos2
    have hsh2 : pos2.shares = pos0.shares := by rw [hpos2]; split <;> simp [hsh1]
    have hed2 : pos2.entry_date = pos0.entry_date := by rw [hpos2]; split <;> simp [hed1]
    have hspec := partial_exits_loop_spec eng bar.high_price bar.date partial_rules
      pos2 st.cash st.trades partial_rules_pct (hsh2 ▸ hS0)
    obtain ⟨hc, hsh, hep, hedq, hsl, hhp, htp, hcash, hdates⟩ := hspec
    set r := eng.partial_exits_loop bar.high_price bar.date partial_rules pos2 st.cash st.trades with hr
    have hedr : r.position.entry_date = pos0.entry_date := by rw [hedq, hed2]
    have htrades : ∀ t ∈ r.trades, t.entry_date ≤ t.exit_date ∧
        t.holding_days = t.exit_date - t.entry_date ∧ t.entry_date ≤ bar.date := by
      refine hdates _ h1 ?_
      intro t he hx hh _
      rw [hed2] at he hh
      exact ⟨by rw [he, hx]; exact hed0, by rw [hh, he, hx], by rw [he]; exact hed0⟩
    have h3r : st.trading_halted = true → ∃ e, st.halt_date = some e ∧ e ≤ bar.date ∧
        (∀ t ∈ r.trades, t.entry_date ≤ e) ∧ r.position.entry_date ≤ e := by
      intro hh
      obtain ⟨e, he, hed, het, hpe⟩ := h3 hh
      have hpe0 := hpe pos0 hpos
      refine ⟨e, he, hed, ?_, by rw [hedr]; exact hpe0⟩
      refine hdates _ het ?_
      intro t he2 _ _ _
      rw [hed2] at he2
      rw [he2]
      exact hpe0
    rw [hc]
    simp only [Bool.false_eq_true, if_false]
    split
    · -- stop-loss exit after the partial evaluation
      refine dates_record_full_exit eng r.position _ _ bar.date _ ?_ ?_ ?_ ?_
      · simpa using htrades
      · rw [hedr]; exact hed0
      · intro hh
        obtain ⟨e, he, hed, het, hpe⟩ := h3r hh
        exact ⟨e, by simpa using he, hed, by simpa using het, hpe⟩
      · intro hh
        exact by simpa using h4 (by simpa using hh)
    · split
      · -- take-profit exit after the partial evaluation
        refine dates_record_full_exit eng r.position _ _ bar.date _ ?_ ?_ ?_ ?_
        · simpa using htrades
        · rw [hedr]; exact hed0
        · intro hh
          obtain ⟨e, he, hed, het, hpe⟩ := h3r hh
          exact ⟨e, by simpa using he, hed, by simpa using het, hpe⟩
        · intro hh
          exact by simpa using h4 (by simpa using hh)
      · -- position stays open
        refine ⟨by simpa using htrades, ?_, ?_, fun hh => ?_, by simpa using h4⟩
        · intro p hp
          simp only [Option.some_inj] at hp
          subst hp
          rw [hedr]
          exact hed0
        · intro p hp
          simp only [Option.some_inj] at hp
          subst hp
          exact hsh
        · obtain ⟨e, he, hed, het, hpe⟩ := h3r (by simpa using hh)
          refine ⟨e, by simpa using he, hed, by simpa using het, ?_⟩
          intro p hp
          simp only [Option.some_inj] at hp
          subst hp
          exact hpe

lemma dates_arm_exit (eng : BacktestEngine) (n i : ℕ) (d : ℤ) (st : RunState)
    (h : DatesInv d st) : DatesInv d (eng.arm_exit_step n i st) := by
  obtain ⟨h1, h2, h5, h3, h4⟩ := h
  unfold BacktestEngine.arm_exit_step
  cases hpos : st.position with
  | none =>
    simp only [hpos]
    exact ⟨h1, h2, h5, h3, h4⟩
  | some pos =>
    simp only [hpos]
    split
    · refine ⟨h1, ?_, ?_, fun hh => ?_, h4⟩
      · intro p hp
        simp only [Option.some_inj] at hp
        subst hp
        exact h2 pos hpos
      · intro p hp
        simp only [Option.some_inj] at hp
        subst hp
        exact h5 pos hpos
      · obtain ⟨e, he, hed, het, hpe⟩ := h3 hh
        refine ⟨e, he, hed, het, ?_⟩
        intro p hp
        simp only [Option.some_inj] at hp
        subst hp
        exact hpe pos hpos
    · exact ⟨h1, h2, h5, h3, h4⟩

lemma dates_arm_entry (eng : BacktestEngine) (n i : ℕ) (bar : Bar) (d : ℤ)
    (st : RunState) (h : DatesInv d st) : DatesInv d (eng.arm_entry_step n i bar st) := by
  refine datesInv_congr d st _ ?_ ?_ ?_ ?_ h <;>
    (simp only [BacktestEngine.arm_entry_step]; (repeat' split) <;> rfl)

lemma dates_daily_update (eng : BacktestEngine) (d : ℤ) (st : RunState)
    (h : DatesInv d st) : DatesInv d (eng.daily_update_step st) := by
  refine datesInv_congr d st _ ?_ ?_ ?_ ?_ h <;>
    (simp only [BacktestEngine.daily_update_step]; (repeat' split) <;> rfl)

lemma dates_scale_down (eng : BacktestEngine) (d : ℤ) (st : RunState)
    (h : DatesInv d st) : DatesInv d (eng.scale_down_step st) := by
  refine datesInv_congr d st _ ?_ ?_ ?_ ?_ h <;>
    (simp only [BacktestEngine.scale_down_step]; (repeat' split) <;> rfl)

lemma dates_consecutive_loss (eng : BacktestEngine) (d : ℤ) (st : RunState)
    (h : DatesInv d st) : DatesInv d (eng.consecutive_loss_step st) := by
  refine datesInv_congr d st _ ?_ ?_ ?_ ?_ h <;>
    (simp only [BacktestEngine.consecutive_loss_step];
      (repeat' split) <;> rfl)

lemma dates_cooldown_decrement (d : ℤ) (st : RunState)
    (h : DatesInv d st) : DatesInv d (cooldown_decrement_step st) := by
  refine datesInv_congr d st _ ?_ ?_ ?_ ?_ h <;>
    (simp only [cooldown_decrement_step]; (repeat' split) <;> rfl)

lemma dates_process_bar (eng : BacktestEngine) :
    ∀ (n i : ℕ) (bar : Bar) (st : RunState) (b : ℤ),
      DatesInv b st → b ≤ bar.date →
      DatesInv bar.date (eng.process_bar n i bar st) := by
  intro n i bar st b h hb
  have h' := datesInv_mono b bar.date st hb h
  unfold BacktestEngine.process_bar
  split
  · exact datesInv_congr _ st _ rfl rfl rfl rfl h'
  · exact dates_cooldown_decrement _ _
      (dates_consecutive_loss eng _ _
        (dates_scale_down eng _ _
          (dates_daily_update eng _ _
            (dates_arm_entry eng n i bar _ _
              (dates_arm_exit eng n i _ _
                (dates_manage eng bar _
                  (dates_pending_entry eng i bar _
                    (dates_pending_exit eng i bar _
                      (dates_halt_check eng bar st h')))))))))

lemma datesInv_init (eng : BacktestEngine) (b : ℤ) : DatesInv b eng.init_state := by
  unfold BacktestEngine.init_state DatesInv
  exact ⟨by simp, by simp, by simp, by simp, by simp⟩

lemma dates_finalize (eng : BacktestEngine) (st : RunState) (lastBar : Bar)
    (hlast : eng.data.getLast? = some lastBar)
    (h : DatesInv lastBar.date st) : DatesInv lastBar.date (eng.finalize st) := by
  obtain ⟨h1, h2, h5, h3, h4⟩ := h
  unfold BacktestEngine.finalize
  cases hpos : st.position with
  | none =>
    simp only [hpos]
    exact ⟨h1, h2, h5, hpos ▸ h3, h4⟩
  | some pos =>
    simp only [hpos, hlast]
    simp only [BacktestEngine.close_position]
    split
    · refine ⟨h1, by simp, by simp, fun hh => ?_, h4⟩
      obtain ⟨e, he, hed, het, _⟩ := h3 hh
      exact ⟨e, he, hed, het, by simp⟩
    · refine ⟨?_, by simp, by simp, fun hh => ?_, h4⟩
      · intro t ht
        rcases List.mem_append.mp ht with hold | hnew
        · exact h1 t hold
        · simp only [List.mem_singleton] at hnew
          subst hnew
          exact ⟨h2 pos hpos, rfl, h2 pos hpos⟩
      · obtain ⟨e, he, hed, het, hpe⟩ := h3 hh
        refine ⟨e, he, hed, ?_, by simp⟩
        intro t ht
        rcases List.mem_append.mp ht with hold | hnew
        · exact het t hold
        · simp only [List.mem_singleton] at hnew
          subst hnew
          exact hpe pos hpos

lemma head_date_le_mem (l : List Bar) (hl : SortedBars l) (hne : l ≠ []) :
    ∀ x ∈ l, (l.head hne).date ≤ x.date := by
  cases l with
  | nil => exact absurd rfl hne
  | cons a rest =>
    intro x hx
    rw [SortedBars, List.pairwise_cons] at hl
    rcases List.mem_cons.mp hx with rfl | h2
    · exact le_refl _
    · exact hl.1 x h2

lemma run_empty (eng : BacktestEngine) (h : eng.data = []) :
    eng.run = eng.init_state := by
  unfold BacktestEngine.run BacktestEngine.loop_state
  rw [h]
  show eng.finalize eng.init_state = eng.init_state
  unfold BacktestEngine.finalize BacktestEngine.init_state
  rfl

/-- The dates invariant holds of the final state of every run on sorted
nonempty data, at the last bar's date. -/
lemma run_datesInv (eng : BacktestEngine) (hsorted : SortedBars eng.data)
    (hne : eng.data ≠ []) :
    DatesInv ((eng.data.getLast hne).date) eng.run := by
  have hlast := List.getLast?_eq_getLast eng.data hne
  have hinv : DatesInv (eng.data.getLast hne).date eng.loop_state := by
    unfold BacktestEngine.loop_state
    exact run_from_preserve eng DatesInv datesInv_mono (dates_process_bar eng)
      eng.data eng.data.length 0 eng.init_state (eng.data.head hne).date
      (eng.data.getLast hne).date
      (datesInv_init eng _)
      (head_date_le_mem eng.data hsorted hne)
      hsorted
      (mem_date_le_getLast eng.data hsorted hne _ (List.head_mem hne))
      (mem_date_le_getLast eng.data hsorted hne)
  exact dates_finalize eng _ _ hlast hinv

/-! ### Claim C1 (trade date ordering and holding days) -/

/-- Claim C1 counterexample: with valid RiskParams, zero slippage/cost, a flat
two-bar series and an entry signal on bar 0, the entry fills at bar 1's open
and is force-closed at bar 1's close, so the single recorded trade has
`exit_date = entry_date` — not strictly greater as claimed.  (Its
`holding_days` is still the exact calendar difference, 0.) -/
theorem C1_counterexample :
    cex_params.Valid ∧ (cex_engine.run).trades = [cexTrade] ∧
      ¬ (∀ t ∈ (cex_engine.run).trades, t.entry_date < t.exit_date) := by
  refine ⟨?_, ?_, ?_⟩
  · norm_num [RiskParams.Valid, cex_params]
  · rw [c1cex_run]
    rfl
  · rw [c1cex_run]
    intro hall
    exact absurd (hall cexTrade (by simp [cexSF])) (by simp [cexTrade])

/-- Claim C1 (amended): for every RiskParams and sorted price series, every
trade recorded by `run` has `exit_date ≥ entry_date` (equality is possible:
a stop, take-profit, partial target or the final forced close can fire on
the entry bar itself), and `holding_days` equals the exact calendar-day
difference `exit_date − entry_date`. -/
theorem C1_trade_dates (eng : BacktestEngine) (hsorted : SortedBars eng.data) :
    ∀ t ∈ (eng.run).trades, t.entry_date ≤ t.exit_date ∧
      t.holding_days = t.exit_date - t.entry_date := by
  by_cases hne : eng.data = []
  · rw [run_empty eng hne]
    intro t ht
    simp [BacktestEngine.init_state] at ht
  · intro t ht
    have h := (run_datesInv eng hsorted hne).1 t ht
    exact ⟨h.1, h.2.1⟩

/-- Claim C1 amended-claim witness: the two-bar engine's data is sorted, and
the amended property holds of its run. -/
theorem C1_trade_dates_witness :
    SortedBars cex_engine.data ∧
      ∀ t ∈ (cex_engine.run).trades, t.entry_date ≤ t.exit_date ∧
        t.holding_days = t.exit_date - t.entry_date :=
  ⟨by simp [SortedBars, cex_engine, flat_bar],
    C1_trade_dates cex_engine (by simp [SortedBars, cex_engine, flat_bar])⟩

/-! ### Claim C2 (halt blocks new entries; open positions managed normally) -/

set_option maxHeartbeats 2000000 in
lemma manage_halted_invariant (eng : BacktestEngine) (bar : Bar) (st : RunState)
    (b : Bool) (hd : Option ℤ) :
    eng.manage_position_step bar { st with trading_halted := b, halt_date := hd } =
      { eng.manage_position_step bar st with trading_halted := b, halt_date := hd } := by
  obtain ⟨c, e, pe, pos, pei, pef, pxi, cd, cl, mclo, th, hdt, sda, sm, tr, eh, dr, w⟩ := st
  cases pos with
  | none => rfl
  | some p =>
    unfold BacktestEngine.manage_position_step BacktestEngine.evaluate_partial_exits
      BacktestEngine.record_full_exit
    dsimp only
    repeat' split
    all_goals rfl

/-- Claim C2: (a) whenever the run records a halt date (set on the bar where
`equity ≤ initial_capital × (1 − max_portfolio_drawdown_pct)` first holds),
no trade in the ledger has an entry date after it; and (b) the
position-management/exit block of the loop does not read `trading_halted` at
all — it commutes with arbitrarily overwriting the halt flag and date — so a
position already open at the halt continues to be managed and exited exactly
as it would be without the halt (trailing stop, partial exits, stop and
take-profit, all unchanged). -/
theorem C2_halt_blocks_entries (eng : BacktestEngine) (hsorted : SortedBars eng.data) :
    (∀ d, (eng.run).halt_date = some d → ∀ t ∈ (eng.run).trades, t.entry_date ≤ d) ∧
    (∀ (bar : Bar) (st : RunState) (b : Bool) (hd : Option ℤ),
      eng.manage_position_step bar { st with trading_halted := b, halt_date := hd } =
        { eng.manage_position_step bar st with trading_halted := b, halt_date := hd }) := by
  constructor
  · intro d hd t ht
    by_cases hne : eng.data = []
    · rw [run_empty eng hne] at hd
      exact absurd hd (by simp [BacktestEngine.init_state])
    · obtain ⟨h1, h2, h5, h3, h4⟩ := run_datesInv eng hsorted hne
      cases hh : (eng.run).trading_halted with
      | false =>
        rw [h4 hh] at hd
        exact absurd hd (by simp)
      | true =>
        obtain ⟨e, he, hed, het, _⟩ := h3 hh
        rw [he] at hd
        simp only [Option.some_inj] at hd
        subst hd
        exact het t ht
  · intro bar st b hd
    exact manage_halted_invariant eng bar st b hd

/-- Claim C2 witness: the theorem applied to the concrete two-bar engine. -/
theorem C2_halt_blocks_entries_witness :
    SortedBars cex_engine.data ∧
      ((∀ d, (cex_engine.run).halt_date = some d →
          ∀ t ∈ (cex_engine.run).trades, t.entry_date ≤ d) ∧
        (∀ (bar : Bar) (st : RunState) (b : Bool) (hd : Option ℤ),
          cex_engine.manage_position_step bar
              { st with trading_halted := b, halt_date := hd } =
            { cex_engine.manage_position_step bar st with
                trading_halted := b, halt_date := hd })) :=
  ⟨by simp [SortedBars, cex_engine, flat_bar],
    C2_halt_blocks_entries cex_engine (by simp [SortedBars, cex_engine, flat_bar])⟩

/-! ### Cash-conservation invariant (claim C3) -/

/-- Entry cost currently tied up in the open position. -/
def invested : Option Position → ℚ
  | some p => (p.shares : ℚ) * p.entry_price
  | none => 0

/-- Cash accounting invariant: cash always equals initial capital plus all
realized pnl minus the entry cost of the open position; when flat the equity
variable equals cash; and any open position holds positive shares. -/
def CashInv (eng : BacktestEngine) (st : RunState) : Prop :=
  st.cash = eng.initial_capital + sumPnl st.trades - invested st.position ∧
  (st.position = none → st.equity = st.cash) ∧
  (∀ p, st.position = some p → 0 < p.shares)

lemma run_from_preserve_state (eng : BacktestEngine) (P : RunState → Prop)
    (step : ∀ n i bar st, P st → P (eng.process_bar n i bar st)) :
    ∀ (l : List Bar) (n i : ℕ) (st : RunState), P st → P (eng.run_from n i l st) := by
  intro l
  induction l with
  | nil => intro n i st h; exact h
  | cons bar rest ih =>
    intro n i st h
    exact ih n (i + 1) _ (step n i bar st h)

lemma determine_shares_spec (eng : BacktestEngine)
    (cash equity entry_price f m : ℚ) :
    (eng.determine_shares cash equity entry_price f m).1 ≤ 0 ∨
      (eng.determine_shares cash equity entry_price f m).2.1 =
        ((eng.determine_shares cash equity entry_price f m).1 : ℚ) * entry_price := by
  unfold BacktestEngine.determine_shares
  split
  · exact Or.inl (by norm_num)
  · dsimp only
    by_cases hrps : entry_price * eng.risk_params.stop_pct > 0
    · rw [if_pos hrps]
      split
      · exact Or.inl (by norm_num)
      · exact Or.inr rfl
    · rw [if_neg hrps]
      split
      · exact Or.inl (by norm_num)
      · exact Or.inr rfl

lemma cash_record_full_exit (eng : BacktestEngine) (pos : Position) (x : ℚ)
    (d : ℤ) (reason : String) (st : RunState)
    (hc : st.cash = eng.initial_capital + sumPnl st.trades - (pos.shares : ℚ) * pos.entry_price)
    (hS : 0 < pos.shares) :
    CashInv eng (eng.record_full_exit pos x d reason st) := by
  unfold BacktestEngine.record_full_exit BacktestEngine.close_position
  rw [if_neg (by omega)]
  dsimp only
  refine ⟨?_, fun _ => rfl, by simp⟩
  show st.cash + x * (pos.shares : ℚ) =
    eng.initial_capital + sumPnl (st.trades ++ [_]) - invested none
  rw [sumPnl_append, hc]
  simp only [sumPnl, invested, List.map_cons, List.map_nil, List.sum_cons, List.sum_nil]
  ring

lemma cash_halt_check (eng : BacktestEngine) (bar : Bar) (st : RunState)
    (h : CashInv eng st) : CashInv eng (eng.halt_check_step bar st) := by
  unfold BacktestEngine.halt_check_step
  split
  · exact h
  · exact h

lemma cash_pending_exit (eng : BacktestEngine) (i : ℕ) (bar : Bar) (st : RunState)
    (h : CashInv eng st) : CashInv eng (eng.pending_exit_step i bar st) := by
  obtain ⟨h1, h2, h5⟩ := h
  unfold BacktestEngine.pending_exit_step
  cases hpos : st.position with
  | none =>
    simp only [hpos]
    exact ⟨h1, h2, h5⟩
  | some pos =>
    simp only [hpos]
    split
    · refine cash_record_full_exit eng pos _ _ _ st ?_ (h5 pos hpos)
      rw [hpos] at h1
      simpa [invested] using h1
    · exact ⟨h1, h2, h5⟩

lemma cash_pending_entry (eng : BacktestEngine) (i : ℕ) (bar : Bar) (st : RunState)
    (h : CashInv eng st) : CashInv eng (eng.pending_entry_step i bar st) := by
  obtain ⟨h1, h2, h5⟩ := h
  unfold BacktestEngine.pending_entry_step
  split
  · next hcond =>
    dsimp only
    split
    · next hshares =>
      have hcap : (eng.determine_shares st.cash st.equity
          (eng.execute_entry_price bar.open_price) st.pending_entry_fraction
          st.size_multiplier).2.1 =
          ((eng.determine_shares st.cash st.equity
            (eng.execute_entry_price bar.open_price) st.pending_entry_fraction
            st.size_multiplier).1 : ℚ) * eng.execute_entry_price bar.open_price := by
        rcases determine_shares_spec eng st.cash st.equity
          (eng.execute_entry_price bar.open_price) st.pending_entry_fraction
          st.size_multiplier with hle | heq
        · exact absurd hshares (not_lt.mpr hle)
        · exact heq
      have h1n : st.cash = eng.initial_capital + sumPnl st.trades := by
        rw [hcond.1] at h1
        simpa [invested] using h1
      refine ⟨?_, by simp, ?_⟩
      · simp only [invested]
        rw [hcap, h1n]
      · intro p hp
        simp only [Option.some_inj] at hp
        subst hp
        exact hshares
    · exact ⟨by simpa using h1, by simpa using h2, by simpa using h5⟩
  · exact ⟨h1, h2, h5⟩

lemma cash_manage (eng : BacktestEngine) (bar : Bar) (st : RunState)
    (h : CashInv eng st) : CashInv eng (eng.manage_position_step bar st) := by
  obtain ⟨h1, h2, h5⟩ := h
  unfold BacktestEngine.manage_position_step BacktestEngine.evaluate_partial_exits
  cases hpos : st.position with
  | none =>
    simp only [hpos]
    rw [hpos] at h1
    exact ⟨h1, fun _ => rfl, by simp⟩
  | some pos0 =>
    simp only [hpos]
    rw [hpos] at h1
    have hS0 : 0 < pos0.shares := h5 pos0 hpos
    set pos1 := if bar.high_price > pos0.highest_price
      then { pos0 with highest_price := bar.high_price } else pos0 with hpos1
    have hsh1 : pos1.shares = pos0.shares := by rw [hpos1]; split <;> rfl
    have hep1 : pos1.entry_price = pos0.entry_price := by rw [hpos1]; split <;> rfl
    set pos2 := if pos1.highest_price * (1 - eng.risk_params.trailing_pct) > pos1.stop_loss
      then { pos1 with stop_loss := pos1.highest_price * (1 - eng.risk_params.trailing_pct) }
      else pos1 with hpos2
    have hsh2 : pos2.shares = pos0.shares := by rw [hpos2]; split <;> simp [hsh1]
    have hep2 : pos2.entry_price = pos0.entry_price := by rw [hpos2]; split <;> simp [hep1]
    have hspec := partial_exits_loop_spec eng bar.high_price bar.date partial_rules
      pos2 st.cash st.trades partial_rules_pct (hsh2 ▸ hS0)
    obtain ⟨hc, hsh, hep, hedq, hsl, hhp, htp, hcash, _⟩ := hspec
    set r := eng.partial_exits_loop bar.high_price bar.date partial_rules pos2 st.cash st.trades with hr
    have hepr : r.position.entry_price = pos0.entry_price := by rw [hep, hep2]
    have hcashr : r.cash = eng.initial_capital + sumPnl r.trades -
        (r.position.shares : ℚ) * r.position.entry_price := by
      have h1e : st.cash = eng.initial_capital + sumPnl st.trades -
          (pos0.shares : ℚ) * pos0.entry_price := by simpa [invested] using h1
      have hc2 : ((pos2.shares : ℤ) : ℚ) = ((pos0.shares : ℤ) : ℚ) := by
        exact_mod_cast congrArg (fun z : ℤ => (z : ℚ)) hsh2
      rw [hep2, hc2] at hcash
      rw [hepr]
      linarith [hcash]
    rw [hc]
    simp only [Bool.false_eq_true, if_false]
    split
    · exact cash_record_full_exit eng r.position _ _ _ _ (by simpa using hcashr) hsh
    · split
      · exact cash_record_full_exit eng r.position _ _ _ _ (by simpa using hcashr) hsh
      · refine ⟨by simpa [invested] using hcashr, by simp, ?_⟩
        intro p hp
        simp only [Option.some_inj] at hp
        subst hp
        exact hsh

lemma cash_arm_exit (eng : BacktestEngine) (n i : ℕ) (st : RunState)
    (h : CashInv eng st) : CashInv eng (eng.arm_exit_step n i st) := by
  obtain ⟨h1, h2, h5⟩ := h
  unfold BacktestEngine.arm_exit_step
  cases hpos : st.position with
  | none =>
    simp only [hpos]
    exact ⟨h1, h2, h5⟩
  | some pos =>
    simp only [hpos]
    split
    · rw [hpos] at h1
      refine ⟨?_, by simp, ?_⟩
      · simpa [invested] using h1
      · intro p hp
        simp only [Option.some_inj] at hp
        subst hp
        exact h5 pos hpos
    · exact ⟨h1, h2, h5⟩

lemma cash_arm_entry (eng : BacktestEngine) (n i : ℕ) (bar : Bar) (st : RunState)
    (h : CashInv eng st) : CashInv eng (eng.arm_entry_step n i bar st) := by
  obtain ⟨h1, h2, h5⟩ := h
  unfold BacktestEngine.arm_entry_step
  split
  · exact ⟨h1, h2, h5⟩
  · exact ⟨h1, h2, h5⟩

lemma cash_daily_update (eng : BacktestEngine) (st : RunState)
    (h : CashInv eng st) : CashInv eng (eng.daily_update_step st) := by
  obtain ⟨h1, h2, h5⟩ := h
  unfold BacktestEngine.daily_update_step
  dsimp only
  repeat' split
  all_goals exact ⟨h1, h2, h5⟩

lemma cash_scale_down (eng : BacktestEngine) (st : RunState)
    (h : CashInv eng st) : CashInv eng (eng.scale_down_step st) := by
  obtain ⟨h1, h2, h5⟩ := h
  unfold BacktestEngine.scale_down_step
  split
  · exact ⟨h1, h2, h5⟩
  · exact ⟨h1, h2, h5⟩

lemma cash_consecutive_loss (eng : BacktestEngine) (st : RunState)
    (h : CashInv eng st) : CashInv eng (eng.consecutive_loss_step st) := by
  obtain ⟨h1, h2, h5⟩ := h
  unfold BacktestEngine.consecutive_loss_step
  dsimp only
  repeat' split
  all_goals exact ⟨h1, h2, h5⟩

lemma cash_cooldown_decrement (eng : BacktestEngine) (st : RunState)
    (h : CashInv eng st) : CashInv eng (cooldown_decrement_step st) := by
  obtain ⟨h1, h2, h5⟩ := h
  unfold cooldown_decrement_step
  split
  · exact ⟨h1, h2, h5⟩
  · exact ⟨h1, h2, h5⟩

lemma cash_process_bar (eng : BacktestEngine) :
    ∀ (n i : ℕ) (bar : Bar) (st : RunState),
      CashInv eng st → CashInv eng (eng.process_bar n i bar st) := by
  intro n i bar st h
  unfold BacktestEngine.process_bar
  split
  · obtain ⟨h1, h2, h5⟩ := h
    exact ⟨h1, h2, h5⟩
  · exact cash_cooldown_decrement eng _
      (cash_consecutive_loss eng _
        (cash_scale_down eng _
          (cash_daily_update eng _
            (cash_arm_entry eng n i bar _
              (cash_arm_exit eng n i _
                (cash_manage eng bar _
                  (cash_pending_entry eng i bar _
                    (cash_pending_exit eng i bar _
                      (cash_halt_check eng bar st h)))))))))

/-! ### The equity-history append structure of one bar -/

lemma hist_halt_check (eng : BacktestEngine) (bar : Bar) (st : RunState) :
    (eng.halt_check_step bar st).equity_history = st.equity_history := by
  unfold BacktestEngine.halt_check_step
  split <;> rfl

lemma hist_pending_exit (eng : BacktestEngine) (i : ℕ) (bar : Bar) (st : RunState) :
    (eng.pending_exit_step i bar st).equity_history = st.equity_history := by
  unfold BacktestEngine.pending_exit_step BacktestEngine.record_full_exit
  repeat' split
  all_goals rfl

lemma hist_pending_entry (eng : BacktestEngine) (i : ℕ) (bar : Bar) (st : RunState) :
    (eng.pending_entry_step i bar st).equity_history = st.equity_history := by
  unfold BacktestEngine.pending_entry_step
  dsimp only
  repeat' split
  all_goals rfl

lemma hist_manage (eng : BacktestEngine) (bar : Bar) (st : RunState) :
    (eng.manage_position_step bar st).equity_history = st.equity_history := by
  unfold BacktestEngine.manage_position_step BacktestEngine.record_full_exit
  dsimp only
  repeat' split
  all_goals rfl

lemma hist_arm_exit (eng : BacktestEngine) (n i : ℕ) (st : RunState) :
    (eng.arm_exit_step n i st).equity_history = st.equity_history := by
  unfold BacktestEngine.arm_exit_step
  repeat' split
  all_goals rfl

lemma hist_arm_entry (eng : BacktestEngine) (n i : ℕ) (bar : Bar) (st : RunState) :
    (eng.arm_entry_step n i bar st).equity_history = st.equity_history := by
  unfold BacktestEngine.arm_entry_step
  repeat' split
  all_goals rfl

lemma hist_daily_update (eng : BacktestEngine) (st : RunState) :
    (eng.daily_update_step st).equity_history = st.equity_history ++ [st.equity] ∧
      (eng.daily_update_step st).equity = st.equity := by
  unfold BacktestEngine.daily_update_step
  dsimp only
  constructor <;> (repeat' split) <;> rfl

lemma hist_scale_down (eng : BacktestEngine) (st : RunState) :
    (eng.scale_down_step st).equity_history = st.equity_history ∧
      (eng.scale_down_step st).equity = st.equity := by
  unfold BacktestEngine.scale_down_step
  constructor <;> (repeat' split) <;> rfl

lemma hist_consecutive_loss (eng : BacktestEngine) (st : RunState) :
    (eng.consecutive_loss_step st).equity_history = st.equity_history ∧
      (eng.consecutive_loss_step st).equity = st.equity := by
  unfold BacktestEngine.consecutive_loss_step
  dsimp only
  constructor <;> (repeat' split) <;> rfl

lemma hist_cooldown_decrement (st : RunState) :
    (cooldown_decrement_step st).equity_history = st.equity_history ∧
      (cooldown_decrement_step st).equity = st.equity := by
  unfold cooldown_decrement_step
  constructor <;> (repeat' split) <;> rfl

/-- Every processed bar appends exactly one point to the equity curve, whose
value is the equity at the end of the bar. -/
lemma process_bar_history (eng : BacktestEngine) (n i : ℕ) (bar : Bar) (st : RunState) :
    (eng.process_bar n i bar st).equity_history =
      st.equity_history ++ [(eng.process_bar n i bar st).equity] := by
  unfold BacktestEngine.process_bar
  split
  · rfl
  · rw [(hist_cooldown_decrement _).1, (hist_consecutive_loss eng _).1,
      (hist_scale_down eng _).1, (hist_daily_update eng _).1,
      hist_arm_entry, hist_arm_exit, hist_manage, hist_pending_entry,
      hist_pending_exit, hist_halt_check,
      (hist_cooldown_decrement _).2, (hist_consecutive_loss eng _).2,
      (hist_scale_down eng _).2, (hist_daily_update eng _).2]

lemma run_from_hist_last (eng : BacktestEngine) :
    ∀ (l : List Bar) (n i : ℕ) (st : RunState),
      (st.equity_history = [] ∨ st.equity_history.getLast? = some st.equity) →
      ((eng.run_from n i l st).equity_history = [] ∨
        (eng.run_from n i l st).equity_history.getLast? =
          some (eng.run_from n i l st).equity) := by
  intro l
  induction l with
  | nil => intro n i st h; exact h
  | cons bar rest ih =>
    intro n i st h
    refine ih n (i + 1) _ (Or.inr ?_)
    rw [process_bar_history]
    simp

lemma run_from_hist_ne (eng : BacktestEngine) :
    ∀ (l : List Bar) (n i : ℕ) (st : RunState),
      st.equity_history ≠ [] → (eng.run_from n i l st).equity_history ≠ [] := by
  intro l
  induction l with
  | nil => intro n i st h; exact h
  | cons bar rest ih =>
    intro n i st _
    refine ih n (i + 1) _ ?_
    rw [process_bar_history]
    simp

lemma setLast_getLast (l : List ℚ) (x : ℚ) (h : l ≠ []) :
    (setLast l x).getLast? = some x := by
  cases l with
  | nil => exact absurd rfl h
  | cons a rest =>
    unfold setLast
    simp

lemma cashInv_init (eng : BacktestEngine) : CashInv eng eng.init_state := by
  refine ⟨?_, fun _ => rfl, by simp [BacktestEngine.init_state]⟩
  simp [BacktestEngine.init_state, sumPnl, invested]

/-- Finalize turns the cash invariant into the round-trip equality on the
last equity point. -/
lemma final_equity (eng : BacktestEngine) (st : RunState) (lastBar : Bar)
    (hlast : eng.data.getLast? = some lastBar)
    (hc : CashInv eng st) (hne2 : st.equity_history ≠ [])
    (hh : st.equity_history = [] ∨ st.equity_history.getLast? = some st.equity) :
    (eng.finalize st).equity_history.getLast? =
      some (eng.initial_capital + sumPnl (eng.finalize st).trades) := by
  obtain ⟨h1, h2, h5⟩ := hc
  rcases hh with hnil | hlasteq
  · exact absurd hnil hne2
  unfold BacktestEngine.finalize
  cases hpos : st.position with
  | none =>
    simp only [hpos, hlast]
    rw [hlasteq, h2 hpos]
    rw [hpos] at h1
    simp only [invested] at h1
    rw [h1]
    norm_num
  | some pos =>
    simp only [hpos, hlast]
    simp only [BacktestEngine.close_position]
    rw [if_neg (by have := h5 pos hpos; omega)]
    dsimp only
    rw [setLast_getLast _ _ hne2, sumPnl_append]
    rw [hpos] at h1
    simp only [invested] at h1
    rw [h1]
    simp only [sumPnl, List.map_cons, List.map_nil, List.sum_cons, List.sum_nil]
    congr 1
    ring

/-! ### Claim C3 (pnl sum plus initial capital equals final equity) -/

/-- Claim C3: for every run (in particular any run in which no bar is skipped
for missing OHLC — the hypothesis `hnoskip`), the final value of the equity
curve equals `initial_capital` plus the sum of `pnl` over all recorded
trades, full and partial.  In this exact-rational model the equality is
exact, hence within any floating-point tolerance. -/
theorem C3_equity_roundtrip (eng : BacktestEngine) (hne : eng.data ≠ [])
    (hnoskip : ∀ b ∈ eng.data, b.has_na = false) :
    (eng.run).equity_history.getLast? =
      some (eng.initial_capital + sumPnl (eng.run).trades) := by
  have hcash : CashInv eng eng.loop_state :=
    run_from_preserve_state eng _ (cash_process_bar eng) eng.data _ 0 _ (cashInv_init eng)
  have hhist := run_from_hist_last eng eng.data eng.data.length 0 eng.init_state
    (Or.inl rfl)
  have hlast := List.getLast?_eq_getLast eng.data hne
  have hne2 : (eng.loop_state).equity_history ≠ [] := by
    cases hd : eng.data with
    | nil => exact absurd hd hne
    | cons bar rest =>
      unfold BacktestEngine.loop_state
      rw [hd]
      show (eng.run_from (bar :: rest).length 1 rest
        (eng.process_bar (bar :: rest).length 0 bar eng.init_state)).equity_history ≠ []
      refine run_from_hist_ne eng rest _ _ _ ?_
      rw [process_bar_history]
      simp
  exact final_equity eng eng.loop_state _ hlast hcash hne2 hhist

/-- Claim C3 witness: the round-trip equality instantiated on the concrete
two-bar engine (nonempty, no missing OHLC). -/
theorem C3_equity_roundtrip_witness :
    cex_engine.data ≠ [] ∧ (∀ b ∈ cex_engine.data, b.has_na = false) ∧
      (cex_engine.run).equity_history.getLast? =
        some (cex_engine.initial_capital + sumPnl (cex_engine.run).trades) :=
  ⟨by simp [cex_engine], by simp [cex_engine, flat_bar],
    C3_equity_roundtrip cex_engine (by simp [cex_engine])
      (by simp [cex_engine, flat_bar])⟩

/-! ### Claim C6 (trailing stop is monotonically non-decreasing) -/

lemma halt_pos (eng : BacktestEngine) (bar : Bar) (st : RunState) :
    (eng.halt_check_step bar st).position = st.position := by
  unfold BacktestEngine.halt_check_step
  split <;> rfl

lemma halt_pe (eng : BacktestEngine) (bar : Bar) (st : RunState) :
    (eng.halt_check_step bar st).pending_exit_idx = st.pending_exit_idx := by
  unfold BacktestEngine.halt_check_step
  split <;> rfl

lemma pending_exit_skip (eng : BacktestEngine) (i : ℕ) (bar : Bar) (st : RunState)
    (h : st.pending_exit_idx ≠ some i) : eng.pending_exit_step i bar st = st := by
  unfold BacktestEngine.pending_exit_step
  split
  · rw [if_neg h]
  · rfl

lemma pending_entry_skip (eng : BacktestEngine) (i : ℕ) (bar : Bar) (st : RunState)
    (h : st.position ≠ none) : eng.pending_entry_step i bar st = st := by
  unfold BacktestEngine.pending_entry_step
  rw [if_neg (fun hc => h hc.1)]

lemma record_full_exit_pos (eng : BacktestEngine) (pos : Position) (x : ℚ)
    (d : ℤ) (reason : String) (st : RunState) :
    (eng.record_full_exit pos x d reason st).position = none := by
  rfl

lemma pos_arm_entry (eng : BacktestEngine) (n i : ℕ) (bar : Bar) (st : RunState) :
    (eng.arm_entry_step n i bar st).position = st.position := by
  unfold BacktestEngine.arm_entry_step
  dsimp only
  split <;> rfl

lemma pos_daily_update (eng : BacktestEngine) (st : RunState) :
    (eng.daily_update_step st).position = st.position := by
  unfold BacktestEngine.daily_update_step
  dsimp only
  repeat' split
  all_goals rfl

lemma pos_scale_down (eng : BacktestEngine) (st : RunState) :
    (eng.scale_down_step st).position = st.position := by
  unfold BacktestEngine.scale_down_step
  split <;> rfl

lemma pos_consecutive_loss (eng : BacktestEngine) (st : RunState) :
    (eng.consecutive_loss_step st).position = st.position := by
  unfold BacktestEngine.consecutive_loss_step
  dsimp only
  repeat' split
  all_goals rfl

lemma pos_cooldown_decrement (st : RunState) :
    (cooldown_decrement_step st).position = st.position := by
  unfold cooldown_decrement_step
  split <;> rfl

/-- Arming a pending exit only flips the bookkeeping flag on the open
position; stop and high-water mark are untouched. -/
lemma arm_exit_pos (eng : BacktestEngine) (n i : ℕ) (st : RunState) (pb : Position)
    (h : (eng.arm_exit_step n i st).position = some pb) :
    ∃ q, st.position = some q ∧ q.stop_loss = pb.stop_loss ∧
      q.highest_price = pb.highest_price := by
  unfold BacktestEngine.arm_exit_step at h
  cases hpos : st.position with
  | none =>
    simp only [hpos] at h
    exact absurd h (by simp)
  | some q =>
    simp only [hpos] at h
    split at h
    · have hqb : ({ q with pending_exit := true } : Position) = pb := by simpa using h
      exact ⟨q, rfl, by rw [← hqb], by rw [← hqb]⟩
    · rw [hpos] at h
      have hqb : q = pb := by simpa using h
      exact ⟨q, rfl, by rw [hqb], by rw [hqb]⟩

/-- The position-management block: if the position survives the bar, its new
stop is exactly the old stop raised (never lowered) to the trailing level of
the new high-water mark. -/
lemma manage_stop_ratchet (eng : BacktestEngine) (bar : Bar) (st : RunState)
    (p pb : Position) (hp : st.position = some p) (hS : 0 < p.shares)
    (hpb : (eng.manage_position_step bar st).position = some pb) :
    pb.stop_loss = max p.stop_loss
      (pb.highest_price * (1 - eng.risk_params.trailing_pct)) := by
  unfold BacktestEngine.manage_position_step BacktestEngine.evaluate_partial_exits at hpb
  simp only [hp] at hpb
  set pos1 := if bar.high_price > p.highest_price
    then { p with highest_price := bar.high_price } else p with hpos1
  have hsl1 : pos1.stop_loss = p.stop_loss := by rw [hpos1]; split <;> rfl
  have hsh1 : pos1.shares = p.shares := by rw [hpos1]; split <;> rfl
  set pos2 := if pos1.highest_price * (1 - eng.risk_params.trailing_pct) > pos1.stop_loss
    then { pos1 with stop_loss := pos1.highest_price * (1 - eng.risk_params.trailing_pct) }
    else pos1 with hpos2
  have hsh2 : pos2.shares = p.shares := by rw [hpos2]; split <;> simp [hsh1]
  have hhp2 : pos2.highest_price = pos1.highest_price := by rw [hpos2]; split <;> rfl
  have hsl2 : pos2.stop_loss =
      max p.stop_loss (pos2.highest_price * (1 - eng.risk_params.trailing_pct)) := by
    rw [hhp2, ← hsl1, hpos2]
    split
    · next hgt => simp [max_eq_right (le_of_lt hgt)]
    · next hle => simp [max_eq_left (not_lt.mp hle)]
  have hspec := partial_exits_loop_spec eng bar.high_price bar.date partial_rules
    pos2 st.cash st.trades partial_rules_pct (hsh2 ▸ hS)
  obtain ⟨hc, _, _, _, hslr, hhpr, _, _, _⟩ := hspec
  set r := eng.partial_exits_loop bar.high_price bar.date partial_rules pos2 st.cash st.trades with hr
  rw [hc] at hpb
  simp only [Bool.false_eq_true, if_false] at hpb
  split at hpb
  · rw [record_full_exit_pos] at hpb
    exact absurd hpb (by simp)
  · split at hpb
    · rw [record_full_exit_pos] at hpb
      exact absurd hpb (by simp)
    · have hbq : r.position = pb := by simpa using hpb
      rw [← hbq, hslr, hhpr, hsl2]

/-- Claim C6: across each bar of an open position's lifetime (the position is
open before the bar, the bar is not skipped for missing data, no pending exit
fires at the bar's open, and the position is still open after the bar), the
stop never decreases and equals the previous stop raised to
`highest_price * (1 - trailing_pct)` exactly when the trailing level exceeds
it. -/
theorem C6_trailing_stop (eng : BacktestEngine) (k : ℕ) (bar : Bar)
    (p p' : Position)
    (hk : eng.data[k]? = some bar) (hna : bar.has_na = false)
    (hp : (eng.state_after k).position = some p)
    (hpe : (eng.state_after k).pending_exit_idx ≠ some k)
    (hp' : (eng.state_after (k + 1)).position = some p') :
    p.stop_loss ≤ p'.stop_loss ∧
      p'.stop_loss = max p.stop_loss
        (p'.highest_price * (1 - eng.risk_params.trailing_pct)) := by
  have hcash : CashInv eng (eng.state_after k) := by
    unfold BacktestEngine.state_after
    exact run_from_preserve_state eng _ (cash_process_bar eng) _ _ 0 _ (cashInv_init eng)
  have hS : 0 < p.shares := hcash.2.2 p hp
  rw [state_after_succ eng k bar hk] at hp'
  set st := eng.state_after k with hstdef
  unfold BacktestEngine.process_bar at hp'
  rw [hna] at hp'
  simp only [Bool.false_eq_true, if_false] at hp'
  rw [pos_cooldown_decrement, pos_consecutive_loss, pos_scale_down, pos_daily_update,
    pos_arm_entry] at hp'
  rw [pending_exit_skip eng k bar _ (by rw [halt_pe]; exact hpe)] at hp'
  rw [pending_entry_skip eng k bar _ (by rw [halt_pos, hp]; simp)] at hp'
  obtain ⟨q, hq, hqs, hqh⟩ := arm_exit_pos eng _ k _ p' hp'
  have hps : (eng.halt_check_step bar st).position = some p := by rw [halt_pos, hp]
  have hmax := manage_stop_ratchet eng bar _ p q hps hS hq
  rw [hqs, hqh] at hmax
  exact ⟨by rw [hmax]; exact le_max_left _ _, hmax⟩

/-- Three flat bars, entry signalled on bar 0: the position opened at bar 1
survives bar 2 untouched. -/
def c6_engine : BacktestEngine :=
  { cex_engine with
    data := [flat_bar 0, flat_bar 1, flat_bar 2]
    entry_signals := [true, false, false]
    exit_signals := [false, false, false] }

/-- End of bar 2 in the three-bar run. -/
def c6S3 : RunState :=
  { cexS2 with
    equity_history := [100000, 100000, 100000]
    daily_returns := [0, 0, 0] }

lemma c6cex_bar0 :
    c6_engine.process_bar 3 0 (flat_bar 0) c6_engine.init_state = cexS1 := by
  have h1 : c6_engine.halt_check_step (flat_bar 0) c6_engine.init_state =
      c6_engine.init_state := by
    norm_num [BacktestEngine.halt_check_step, BacktestEngine.drawdown_halt_level,
      c6_engine, cex_engine, cex_params, flat_bar, BacktestEngine.init_state]
  have h2 : c6_engine.pending_exit_step 0 (flat_bar 0) c6_engine.init_state =
      c6_engine.init_state := by
    norm_num [BacktestEngine.pending_exit_step, c6_engine, cex_engine, cex_params,
      flat_bar, BacktestEngine.init_state]
  have h3 : c6_engine.pending_entry_step 0 (flat_bar 0) c6_engine.init_state =
      c6_engine.init_state := by
    norm_num [BacktestEngine.pending_entry_step, c6_engine, cex_engine, cex_params,
      flat_bar, BacktestEngine.init_state]
    all_goals simp
  have h4 : c6_engine.manage_position_step (flat_bar 0) c6_engine.init_state =
      c6_engine.init_state := by
    norm_num [BacktestEngine.manage_position_step, c6_engine, cex_engine, cex_params,
      flat_bar, BacktestEngine.init_state]
  have h5 : c6_engine.arm_exit_step 3 0 c6_engine.init_state =
      c6_engine.init_state := by
    norm_num [BacktestEngine.arm_exit_step, c6_engine, cex_engine, cex_params,
      BacktestEngine.init_state]
  have h6 : c6_engine.arm_entry_step 3 0 (flat_bar 0) c6_engine.init_state = cexSa := by
    norm_num [BacktestEngine.arm_entry_step, c6_engine, cex_engine, cex_params, flat_bar,
      BacktestEngine.init_state, BacktestEngine.calculate_position_size, cexSa]
  have h7 : c6_engine.daily_update_step cexSa = cexS1 := by
    norm_num [BacktestEngine.daily_update_step, c6_engine, cex_engine, cex_params,
      cexSa, cexS1, BacktestEngine.init_state]
  have h8 : c6_engine.scale_down_step cexS1 = cexS1 := by
    norm_num [BacktestEngine.scale_down_step, BacktestEngine.scale_down_level,
      c6_engine, cex_engine, cex_params, cexS1, cexSa, BacktestEngine.init_state]
  have h9 : c6_engine.consecutive_loss_step cexS1 = cexS1 := by
    norm_num [BacktestEngine.consecutive_loss_step, c6_engine, cex_engine, cex_params,
      cexS1, cexSa, BacktestEngine.init_state]
  have h10 : cooldown_decrement_step cexS1 = cexS1 := by
    norm_num [cooldown_decrement_step, cexS1, cexSa, BacktestEngine.init_state]
  have hna : (flat_bar 0).has_na = false := rfl
  rw [BacktestEngine.process_bar, hna]
  simp only [Bool.false_eq_true, if_false]
  rw [h1, h2, h3, h4, h5, h6, h7, h8, h9, h10]

lemma c6cex_bar1 :
    c6_engine.process_bar 3 1 (flat_bar 1) cexS1 = cexS2 := by
  have h1 : c6_engine.halt_check_step (flat_bar 1) cexS1 = cexS1 := by
    norm_num [BacktestEngine.halt_check_step, BacktestEngine.drawdown_halt_level,
      c6_engine, cex_engine, cex_params, flat_bar, cexS1, cexSa, BacktestEngine.init_state]
  have h2 : c6_engine.pending_exit_step 1 (flat_bar 1) cexS1 = cexS1 := by
    norm_num [BacktestEngine.pending_exit_step, c6_engine, cex_engine, cex_params,
      flat_bar, cexS1, cexSa, BacktestEngine.init_state]
  have h3 : c6_engine.pending_entry_step 1 (flat_bar 1) cexS1 = cexS2a := by
    norm_num [BacktestEngine.pending_entry_step, c6_engine, cex_engine, cex_params,
      flat_bar, cexS1, cexSa, cexS2a, cexPos, BacktestEngine.init_state,
      BacktestEngine.determine_shares, BacktestEngine.execute_entry_price,
      round_to_tick_up, partial_rules, min_def]
  have h4 : c6_engine.manage_position_step (flat_bar 1) cexS2a = cexS2a := by
    norm_num [BacktestEngine.manage_position_step, c6_engine, cex_engine, cex_params,
      flat_bar, cexS2a, cexS1, cexSa, cexPos, BacktestEngine.init_state,
      BacktestEngine.evaluate_partial_exits, BacktestEngine.partial_exits_loop,
      partial_rules, BacktestEngine.execute_exit_price, round_to_tick_down,
      setFlag, pyInt]
  have h5 : c6_engine.arm_exit_step 3 1 cexS2a = cexS2a := by
    norm_num [BacktestEngine.arm_exit_step, c6_engine, cex_engine, cex_params,
      cexS2a, cexS1, cexSa, BacktestEngine.init_state, pendingExitFalsy]
  have h6 : c6_engine.arm_entry_step 3 1 (flat_bar 1) cexS2a = cexS2a := by
    norm_num [BacktestEngine.arm_entry_step, c6_engine, cex_engine, cex_params,
      flat_bar, cexS2a, cexS1, cexSa, BacktestEngine.init_state]
  have h7 : c6_engine.daily_update_step cexS2a = cexS2 := by
    norm_num [BacktestEngine.daily_update_step, c6_engine, cex_engine, cex_params,
      cexS2a, cexS2, cexS1, cexSa, BacktestEngine.init_state]
  have h8 : c6_engine.scale_down_step cexS2 = cexS2 := by
    norm_num [BacktestEngine.scale_down_step, BacktestEngine.scale_down_level,
      c6_engine, cex_engine, cex_params, cexS2, cexS2a, cexS1, cexSa,
      BacktestEngine.init_state]
  have h9 : c6_engine.consecutive_loss_step cexS2 = cexS2 := by
    norm_num [BacktestEngine.consecutive_loss_step, c6_engine, cex_engine, cex_params,
      cexS2, cexS2a, cexS1, cexSa, BacktestEngine.init_state]
  have h10 : cooldown_decrement_step cexS2 = cexS2 := by
    norm_num [cooldown_decrement_step, cexS2, cexS2a, cexS1, cexSa,
      BacktestEngine.init_state]
  have hna : (flat_bar 1).has_na = false := rfl
  rw [BacktestEngine.process_bar, hna]
  simp only [Bool.false_eq_true, if_false]
  rw [h1, h2, h3, h4, h5, h6, h7, h8, h9, h10]

lemma c6cex_bar2 :
    c6_engine.process_bar 3 2 (flat_bar 2) cexS2 = c6S3 := by
  have h1 : c6_engine.halt_check_step (flat_bar 2) cexS2 = cexS2 := by
    norm_num [BacktestEngine.halt_check_step, BacktestEngine.drawdown_halt_level,
      c6_engine, cex_engine, cex_params, flat_bar, cexS2, cexS2a, cexS1, cexSa,
      BacktestEngine.init_state]
  have h2 : c6_engine.pending_exit_step 2 (flat_bar 2) cexS2 = cexS2 := by
    norm_num [BacktestEngine.pending_exit_step, c6_engine, cex_engine, cex_params,
      flat_bar, cexS2, cexS2a, cexS1, cexSa, BacktestEngine.init_state]
    all_goals simp
  have h3 : c6_engine.pending_entry_step 2 (flat_bar 2) cexS2 = cexS2 := by
    norm_num [BacktestEngine.pending_entry_step, c6_engine, cex_engine, cex_params,
      flat_bar, cexS2, cexS2a, cexS1, cexSa, BacktestEngine.init_state]
    all_goals simp
  have h4 : c6_engine.manage_position_step (flat_bar 2) cexS2 = cexS2 := by
    norm_num [BacktestEngine.manage_position_step, c6_engine, cex_engine, cex_params,
      flat_bar, cexS2, cexS2a, cexS1, cexSa, cexPos, BacktestEngine.init_state,
      BacktestEngine.evaluate_partial_exits, BacktestEngine.partial_exits_loop,
      partial_rules, BacktestEngine.execute_exit_price, round_to_tick_down,
      setFlag, pyInt]
  have h5 : c6_engine.arm_exit_step 3 2 cexS2 = cexS2 := by
    norm_num [BacktestEngine.arm_exit_step, c6_engine, cex_engine, cex_params,
      cexS2, cexS2a, cexS1, cexSa, BacktestEngine.init_state, pendingExitFalsy]
  have h6 : c6_engine.arm_entry_step 3 2 (flat_bar 2) cexS2 = cexS2 := by
    norm_num [BacktestEngine.arm_entry_step, c6_engine, cex_engine, cex_params,
      flat_bar, cexS2, cexS2a, cexS1, cexSa, BacktestEngine.init_state]
  have h7 : c6_engine.daily_update_step cexS2 = c6S3 := by
    norm_num [BacktestEngine.daily_update_step, c6_engine, cex_engine, cex_params,
      cexS2, cexS2a, cexS1, cexSa, c6S3, BacktestEngine.init_state]
  have h8 : c6_engine.scale_down_step c6S3 = c6S3 := by
    norm_num [BacktestEngine.scale_down_step, BacktestEngine.scale_down_level,
      c6_engine, cex_engine, cex_params, c6S3, cexS2, cexS2a, cexS1, cexSa,
      BacktestEngine.init_state]
  have h9 : c6_engine.consecutive_loss_step c6S3 = c6S3 := by
    norm_num [BacktestEngine.consecutive_loss_step, c6_engine, cex_engine, cex_params,
      c6S3, cexS2, cexS2a, cexS1, cexSa, BacktestEngine.init_state]
  have h10 : cooldown_decrement_step c6S3 = c6S3 := by
    norm_num [cooldown_decrement_step, c6S3, cexS2, cexS2a, cexS1, cexSa,
      BacktestEngine.init_state]
  have hna : (flat_bar 2).has_na = false := rfl
  rw [BacktestEngine.process_bar, hna]
  simp only [Bool.false_eq_true, if_false]
  rw [h1, h2, h3, h4, h5, h6, h7, h8, h9, h10]

lemma c6_state2 : c6_engine.state_after 2 = cexS2 := by
  show c6_engine.run_from 3 2 []
    (c6_engine.process_bar 3 1 (flat_bar 1)
      (c6_engine.process_bar 3 0 (flat_bar 0) c6_engine.init_state)) = cexS2
  rw [c6cex_bar0, c6cex_bar1]
  rfl

lemma c6_state3 : c6_engine.state_after 3 = c6S3 := by
  show c6_engine.run_from 3 3 []
    (c6_engine.process_bar 3 2 (flat_bar 2)
      (c6_engine.process_bar 3 1 (flat_bar 1)
        (c6_engine.process_bar 3 0 (flat_bar 0) c6_engine.init_state))) = c6S3
  rw [c6cex_bar0, c6cex_bar1, c6cex_bar2]
  rfl

/-- Claim C6 witness: on the three-bar run the position opened at bar 1
persists through bar 2; its stop (92) stays put because the trailing level
(100·0.9 = 90) is below it. -/
theorem C6_trailing_stop_witness :
    c6_engine.data[2]? = some (flat_bar 2) ∧ (flat_bar 2).has_na = false ∧
      (c6_engine.state_after 2).position = some cexPos ∧
      (c6_engine.state_after 2).pending_exit_idx ≠ some 2 ∧
      (c6_engine.state_after 3).position = some cexPos ∧
      cexPos.stop_loss ≤ cexPos.stop_loss ∧
      cexPos.stop_loss = max cexPos.stop_loss
        (cexPos.highest_price * (1 - c6_engine.risk_params.trailing_pct)) :=
  ⟨rfl, rfl, by rw [c6_state2]; rfl,
    by rw [c6_state2]; simp [cexS2, cexS2a, cexS1, cexSa, BacktestEngine.init_state,
      cex_engine],
    by rw [c6_state3]; rfl,
    C6_trailing_stop c6_engine 2 (flat_bar 2) cexPos cexPos rfl rfl
      (by rw [c6_state2]; rfl)
      (by rw [c6_state2]; simp [cexS2, cexS2a, cexS1, cexSa, BacktestEngine.init_state,
        cex_engine])
      (by rw [c6_state3]; rfl)⟩

/-! ### Claim C10 (a blocked pending entry wedges the engine flat forever) -/

/-- The wedged configuration: flat, a stale pending entry index, and an
unchanged trade ledger. -/
def StuckState (i : ℕ) (T : List Trade) (st : RunState) : Prop :=
  st.position = none ∧ st.pending_entry_idx = some i ∧ st.trades = T

lemma stuck_halt (eng : BacktestEngine) (bar : Bar) (st : RunState)
    (i : ℕ) (T : List Trade) (h : StuckState i T st) :
    StuckState i T (eng.halt_check_step bar st) ∧
      (eng.halt_check_step bar st).cooldown = st.cooldown ∧
      (st.trading_halted = true → (eng.halt_check_step bar st).trading_halted = true) := by
  obtain ⟨h1, h2, h3⟩ := h
  unfold BacktestEngine.halt_check_step
  split
  · exact ⟨⟨h1, h2, h3⟩, rfl, fun _ => rfl⟩
  · exact ⟨⟨h1, h2, h3⟩, rfl, fun hh => hh⟩

lemma pending_exit_flat (eng : BacktestEngine) (j : ℕ) (bar : Bar) (st : RunState)
    (h : st.position = none) : eng.pending_exit_step j bar st = st := by
  unfold BacktestEngine.pending_exit_step
  simp only [h]

lemma pending_entry_noop (eng : BacktestEngine) (j : ℕ) (bar : Bar) (st : RunState)
    (hng : ¬(st.position = none ∧ st.pending_entry_idx = some j ∧
      st.trading_halted = false ∧ st.cooldown = 0)) :
    eng.pending_entry_step j bar st = st := by
  unfold BacktestEngine.pending_entry_step
  rw [if_neg hng]

lemma manage_flat (eng : BacktestEngine) (bar : Bar) (st : RunState)
    (h : st.position = none) :
    eng.manage_position_step bar st = { st with equity := st.cash } := by
  unfold BacktestEngine.manage_position_step
  simp only [h]

lemma arm_exit_flat (eng : BacktestEngine) (n j : ℕ) (st : RunState)
    (h : st.position = none) : eng.arm_exit_step n j st = st := by
  unfold BacktestEngine.arm_exit_step
  simp only [h]

lemma arm_entry_noop (eng : BacktestEngine) (n j : ℕ) (bar : Bar) (st : RunState)
    (i : ℕ) (h : st.pending_entry_idx = some i) :
    eng.arm_entry_step n j bar st = st := by
  unfold BacktestEngine.arm_entry_step
  rw [if_neg (fun hc => by rw [h] at hc; simp at hc)]

lemma stuck_daily (eng : BacktestEngine) (st : RunState) (i : ℕ) (T : List Trade)
    (h : StuckState i T st) : StuckState i T (eng.daily_update_step st) := by
  obtain ⟨h1, h2, h3⟩ := h
  unfold BacktestEngine.daily_update_step
  dsimp only
  repeat' split
  all_goals exact ⟨h1, h2, h3⟩

lemma stuck_scale (eng : BacktestEngine) (st : RunState) (i : ℕ) (T : List Trade)
    (h : StuckState i T st) : StuckState i T (eng.scale_down_step st) := by
  obtain ⟨h1, h2, h3⟩ := h
  unfold BacktestEngine.scale_down_step
  repeat' split
  all_goals exact ⟨h1, h2, h3⟩

lemma stuck_consec (eng : BacktestEngine) (st : RunState) (i : ℕ) (T : List Trade)
    (h : StuckState i T st) : StuckState i T (eng.consecutive_loss_step st) := by
  obtain ⟨h1, h2, h3⟩ := h
  unfold BacktestEngine.consecutive_loss_step
  dsimp only
  repeat' split
  all_goals exact ⟨h1, h2, h3⟩

lemma stuck_cooldown (st : RunState) (i : ℕ) (T : List Trade)
    (h : StuckState i T st) : StuckState i T (cooldown_decrement_step st) := by
  obtain ⟨h1, h2, h3⟩ := h
  unfold cooldown_decrement_step
  repeat' split
  all_goals exact ⟨h1, h2, h3⟩

/-- A bar processed in the wedged configuration stays wedged, provided the
pending entry is not due this bar or the engine is blocked (cooling down or
halted) when it is. -/
lemma stuck_process_bar (eng : BacktestEngine) (n j i : ℕ) (bar : Bar)
    (st : RunState) (T : List Trade) (h : StuckState i T st)
    (hj : j ≠ i ∨ 0 < st.cooldown ∨ st.trading_halted = true) :
    StuckState i T (eng.process_bar n j bar st) := by
  obtain ⟨h1, h2, h3⟩ := h
  unfold BacktestEngine.process_bar
  split
  · exact ⟨h1, h2, h3⟩
  · obtain ⟨hs1, hco1, hht1⟩ := stuck_halt eng bar st i T ⟨h1, h2, h3⟩
    rw [pending_exit_flat eng j bar _ hs1.1]
    rw [pending_entry_noop eng j bar _ ?hng]
    case hng =>
      intro hc
      rcases hj with hj | hc0 | hh0
      · have hpe := hc.2.1
        rw [hs1.2.1] at hpe
        exact hj (Option.some_inj.mp hpe).symm
      · have hcool := hc.2.2.2
        rw [hco1] at hcool
        omega
      · have hhal := hc.2.2.1
        rw [hht1 hh0] at hhal
        exact Bool.noConfusion hhal
    rw [manage_flat eng bar _ hs1.1]
    have hs4 : StuckState i T { eng.halt_check_step bar st with
        equity := (eng.halt_check_step bar st).cash } :=
      ⟨hs1.1, hs1.2.1, hs1.2.2⟩
    rw [arm_exit_flat eng n j _ hs4.1]
    rw [arm_entry_noop eng n j bar _ i hs4.2.1]
    exact stuck_cooldown _ i T
      (stuck_consec eng _ i T (stuck_scale eng _ i T (stuck_daily eng _ i T hs4)))

lemma stuck_run_from (eng : BacktestEngine) (n i : ℕ) (T : List Trade) :
    ∀ (l : List Bar) (i0 : ℕ) (st : RunState), i < i0 → StuckState i T st →
      StuckState i T (eng.run_from n i0 l st) := by
  intro l
  induction l with
  | nil => intro i0 st _ h; exact h
  | cons bar rest ih =>
    intro i0 st hlt h
    exact ih (i0 + 1) _ (by omega)
      (stuck_process_bar eng n i0 i bar st T h (Or.inl (by omega)))

/-- Claim C10: when the pending entry comes due at bar `i` while the engine is
blocked (cooldown still positive, or trading halted), `pending_entry_idx` is
never cleared; for every remaining bar list the run stays flat with the stale
pending index and an unchanged trade ledger — no position is ever opened
again. -/
theorem C10_stuck_pending (eng : BacktestEngine) (n i : ℕ) (bar : Bar)
    (l : List Bar) (st : RunState)
    (hpos : st.position = none) (hpend : st.pending_entry_idx = some i)
    (hblock : 0 < st.cooldown ∨ st.trading_halted = true) :
    (eng.run_from n i (bar :: l) st).position = none ∧
      (eng.run_from n i (bar :: l) st).pending_entry_idx = some i ∧
      (eng.run_from n i (bar :: l) st).trades = st.trades := by
  have h0 : StuckState i st.trades (eng.process_bar n i bar st) :=
    stuck_process_bar eng n i i bar st st.trades ⟨hpos, hpend, rfl⟩ (Or.inr hblock)
  have hrun := stuck_run_from eng n i st.trades l (i + 1) _ (by omega) h0
  show StuckState i st.trades (eng.run_from n (i + 1) l (eng.process_bar n i bar st))
  exact hrun

/-- An engine state with a pending entry due at bar 0 under an active
cooldown. -/
def c10_state : RunState :=
  { cex_engine.init_state with pending_entry_idx := some 0, cooldown := 1 }

/-- Claim C10 witness: with cooldown 1 and a pending entry due at bar 0,
both flat-bar days pass without the pending index clearing, a position, or a
trade. -/
theorem C10_stuck_pending_witness :
    c10_state.position = none ∧ c10_state.pending_entry_idx = some 0 ∧
      0 < c10_state.cooldown ∧
      (cex_engine.run_from 2 0 [flat_bar 0, flat_bar 1] c10_state).position = none ∧
      (cex_engine.run_from 2 0 [flat_bar 0, flat_bar 1] c10_state).pending_entry_idx
        = some 0 ∧
      (cex_engine.run_from 2 0 [flat_bar 0, flat_bar 1] c10_state).trades
        = c10_state.trades :=
  ⟨rfl, rfl, by decide,
    C10_stuck_pending cex_engine 2 0 (flat_bar 0) [flat_bar 1] c10_state rfl rfl
      (Or.inl (by decide))⟩

/-! ### Monte-Carlo simulator (monte_carlo.py)

The backtest invoked inside the per-iteration `try` is abstracted as an
oracle `backtest` returning either metrics or an error (an exception); the
numpy random draws are an oracle `rand` giving each iteration's raw block
draws, reduced modulo the legal range exactly as `np.random.randint` would
produce them.  `np.random.randint(0, n - block_size, ...)` raises
`low >= high` whenever `n <= block_size`; crucially `_block_bootstrap` is
called OUTSIDE the `try`. -/

/-- The metrics triple consumed from `engine.run()`. -/
structure MCMetrics where
  CAGR : ℚ
  Sharpe : ℚ
  MaxDD : ℚ
deriving DecidableEq

/-- The fields of `MonteCarloResult` (the maxdd dict flattened). -/
structure MonteCarloResult where
  runs : ℕ
  p5_cagr : ℚ
  p50_cagr : ℚ
  p95_cagr : ℚ
  maxdd_p5 : ℚ
  maxdd_p50 : ℚ
  maxdd_p95 : ℚ
deriving DecidableEq

def insertSorted (x : ℚ) : List ℚ → List ℚ
  | [] => [x]
  | y :: ys => if x ≤ y then x :: y :: ys else y :: insertSorted x ys

def sortRat : List ℚ → List ℚ
  | [] => []
  | x :: xs => insertSorted x (sortRat xs)

/-- `np.percentile(a, q)` with the default linear interpolation: sort, take
position `(n-1)·q/100`, interpolate between the neighbouring order
statistics; raises on an empty array. -/
def np_percentile (l : List ℚ) (q : ℚ) : Except String ℚ :=
  if l = [] then Except.error "cannot do a non-empty take from an empty axes"
  else
    let s := sortRat l
    let h : ℚ := ((s.length : ℚ) - 1) * q / 100
    let k : ℤ := ⌊h⌋
    let lo := s.getD k.toNat 0
    let hi := s.getD (k.toNat + 1) lo
    Except.ok (lo + (h - (k : ℚ)) * (hi - lo))

/-- `_block_bootstrap`: `np.random.randint(0, n - block_size, size=n_blocks)`
raises when `n <= block_size`; otherwise each draw lands in
`[0, n - block_size)`, expands to a block of consecutive indices, indices
`>= n` are filtered, the rows are gathered, and the result is reindexed to a
daily `date_range` starting at the first original date. -/
def block_bootstrap (data : List Bar) (ds : List ℕ) (block_size : ℕ) :
    Except String (List Bar) :=
  let n := data.length
  if n ≤ block_size then Except.error "low >= high"
  else
    let n_blocks := n / block_size
    let starts := (List.range n_blocks).map (fun j => ds.getD j 0 % (n - block_size))
    let resampled_indices :=
      starts.flatMap (fun s => (List.range block_size).map (fun t => s + t))
    let kept := resampled_indices.filter (fun j => j < n)
    let rows := kept.filterMap (fun j => data[j]?)
    let d0 : ℤ := match data.head? with | some b => b.date | none => 0
    Except.ok (rows.enum.map (fun p => { p.2 with date := d0 + (p.1 : ℤ) }))

/-- `Series.reindex(new_index, fill_value=False)`: value at each new date if
the date was in the original index, else False. -/
def reindexSignals (dates : List ℤ) (orig : List (ℤ × Bool)) : List Bool :=
  dates.map (fun d => (((orig.find? (fun p => p.1 == d)).map Prod.snd).getD false))

/-- The simulator's inputs that the `run` control flow reads (the cost
parameters are passed through to the backtest oracle unchanged). -/
structure MonteCarloSimulator where
  data : List Bar
  entry_signals : List (ℤ × Bool)
  exit_signals : List (ℤ × Bool)
  n_runs : ℕ

/-- The outcome of iteration `j`: resample, reindex the signals, backtest. -/
def mc_iter_result (sim : MonteCarloSimulator)
    (backtest : List Bar → List Bool → List Bool → Except String MCMetrics)
    (rand : ℕ → List ℕ) (j : ℕ) : Except String MCMetrics :=
  match block_bootstrap sim.data (rand j) 20 with
  | Except.error e => Except.error e
  | Except.ok rdata =>
    backtest rdata (reindexSignals (rdata.map Bar.date) sim.entry_signals)
      (reindexSignals (rdata.map Bar.date) sim.exit_signals)

/-- The `for i in range(self.n_runs)` loop: the bootstrap is outside the
`try` (its error aborts), the backtest is inside (its error skips the
iteration), successes append to the three distribution lists. -/
def mc_iters (sim : MonteCarloSimulator)
    (backtest : List Bar → List Bool → List Bool → Except String MCMetrics)
    (rand : ℕ → List ℕ) :
    List ℕ → List ℚ × List ℚ × List ℚ → Except String (List ℚ × List ℚ × List ℚ)
  | [], acc => Except.ok acc
  | j :: rest, (cs, ss, ms) =>
    match block_bootstrap sim.data (rand j) 20 with
    | Except.error e => Except.error e
    | Except.ok rdata =>
      match backtest rdata (reindexSignals (rdata.map Bar.date) sim.entry_signals)
          (reindexSignals (rdata.map Bar.date) sim.exit_signals) with
      | Except.ok m =>
        mc_iters sim backtest rand rest
          (cs ++ [m.CAGR], ss ++ [m.Sharpe], ms ++ [m.MaxDD])
      | Except.error _ => mc_iters sim backtest rand rest (cs, ss, ms)

/-- `MonteCarloSimulator.run`: the loop, then the percentile aggregation
(`np.percentile` raising on an empty distribution propagates). -/
def MonteCarloSimulator.run (sim : MonteCarloSimulator)
    (backtest : List Bar → List Bool → List Bool → Except String MCMetrics)
    (rand : ℕ → List ℕ) : Except String MonteCarloResult :=
  match mc_iters sim backtest rand (List.range sim.n_runs) ([], [], []) with
  | Except.error e => Except.error e
  | Except.ok (cs, _, ms) => do
    let p5c ← np_percentile cs 5
    let p50c ← np_percentile cs 50
    let p95c ← np_percentile cs 95
    let p5m ← np_percentile ms 5
    let p50m ← np_percentile ms 50
    let p95m ← np_percentile ms 95
    Except.ok
      { runs := cs.length
        p5_cagr := p5c
        p50_cagr := p50c
        p95_cagr := p95c
        maxdd_p5 := p5m
        maxdd_p50 := p50m
        maxdd_p95 := p95m }

/-- The successful iterations, in order. -/
def mc_successes (sim : MonteCarloSimulator)
    (backtest : List Bar → List Bool → List Bool → Except String MCMetrics)
    (rand : ℕ → List ℕ) : List MCMetrics :=
  (List.range sim.n_runs).filterMap
    (fun j => (mc_iter_result sim backtest rand j).toOption)

lemma block_bootstrap_ok (data : List Bar) (ds : List ℕ) (bs : ℕ)
    (h : bs < data.length) :
    ∃ rdata, block_bootstrap data ds bs = Except.ok rdata := by
  unfold block_bootstrap
  dsimp only
  rw [if_neg (by omega)]
  exact ⟨_, rfl⟩

lemma np_percentile_ok (l : List ℚ) (q : ℚ) (h : l ≠ []) :
    ∃ x, np_percentile l q = Except.ok x := by
  unfold np_percentile
  rw [if_neg h]
  exact ⟨_, rfl⟩

lemma mc_iters_ok (sim : MonteCarloSimulator)
    (backtest : List Bar → List Bool → List Bool → Except String MCMetrics)
    (rand : ℕ → List ℕ) (hn : 20 < sim.data.length) :
    ∀ (idxs : List ℕ) (cs ss ms : List ℚ),
      mc_iters sim backtest rand idxs (cs, ss, ms) =
        Except.ok
          (cs ++ ((idxs.filterMap
              (fun j => (mc_iter_result sim backtest rand j).toOption)).map MCMetrics.CAGR),
           ss ++ ((idxs.filterMap
              (fun j => (mc_iter_result sim backtest rand j).toOption)).map MCMetrics.Sharpe),
           ms ++ ((idxs.filterMap
              (fun j => (mc_iter_result sim backtest rand j).toOption)).map MCMetrics.MaxDD)) := by
  intro idxs
  induction idxs with
  | nil => intro cs ss ms; simp [mc_iters]
  | cons j rest ih =>
    intro cs ss ms
    obtain ⟨rd, hrd⟩ := block_bootstrap_ok sim.data (rand j) 20 hn
    have hiter : mc_iter_result sim backtest rand j =
        backtest rd (reindexSignals (rd.map Bar.date) sim.entry_signals)
          (reindexSignals (rd.map Bar.date) sim.exit_signals) := by
      unfold mc_iter_result
      rw [hrd]
    simp only [mc_iters, hrd]
    cases hb : backtest rd (reindexSignals (rd.map Bar.date) sim.entry_signals)
        (reindexSignals (rd.map Bar.date) sim.exit_signals) with
    | ok m =>
      have hto : (mc_iter_result sim backtest rand j).toOption = some m := by
        rw [hiter, hb]; rfl
      dsimp only
      rw [ih (cs ++ [m.CAGR]) (ss ++ [m.Sharpe]) (ms ++ [m.MaxDD])]
      simp [hto, List.filterMap_cons, List.append_assoc]
    | error e =>
      have hto : (mc_iter_result sim backtest rand j).toOption = none := by
        rw [hiter, hb]; rfl
      dsimp only
      rw [ih cs ss ms]
      simp [hto, List.filterMap_cons]

/-- Claim C8 (amended): once every resampling succeeds (more than 20 rows)
and at least one iteration's backtest succeeds, `run` returns a result whose
`runs` is the number of successful iterations and whose CAGR / MaxDD
percentiles are `np.percentile` at 5/50/95 over the successful iterations
only.  (The unamended claim fails: a resampling failure aborts the whole
simulation, see the counterexample.) -/
theorem C8_success_aggregation (sim : MonteCarloSimulator)
    (backtest : List Bar → List Bool → List Bool → Except String MCMetrics)
    (rand : ℕ → List ℕ)
    (hn : 20 < sim.data.length)
    (hne : mc_successes sim backtest rand ≠ []) :
    ∃ r, sim.run backtest rand = Except.ok r ∧
      r.runs = (mc_successes sim backtest rand).length ∧
      np_percentile ((mc_successes sim backtest rand).map MCMetrics.CAGR) 5 =
        Except.ok r.p5_cagr ∧
      np_percentile ((mc_successes sim backtest rand).map MCMetrics.CAGR) 50 =
        Except.ok r.p50_cagr ∧
      np_percentile ((mc_successes sim backtest rand).map MCMetrics.CAGR) 95 =
        Except.ok r.p95_cagr ∧
      np_percentile ((mc_successes sim backtest rand).map MCMetrics.MaxDD) 5 =
        Except.ok r.maxdd_p5 ∧
      np_percentile ((mc_successes sim backtest rand).map MCMetrics.MaxDD) 50 =
        Except.ok r.maxdd_p50 ∧
      np_percentile ((mc_successes sim backtest rand).map MCMetrics.MaxDD) 95 =
        Except.ok r.maxdd_p95 := by
  have hmapne : ∀ f : MCMetrics → ℚ, (mc_successes sim backtest rand).map f ≠ [] := by
    intro f hmap
    exact hne (by simpa using hmap)
  obtain ⟨x5, hx5⟩ := np_percentile_ok _ 5 (hmapne MCMetrics.CAGR)
  obtain ⟨x50, hx50⟩ := np_percentile_ok _ 50 (hmapne MCMetrics.CAGR)
  obtain ⟨x95, hx95⟩ := np_percentile_ok _ 95 (hmapne MCMetrics.CAGR)
  obtain ⟨y5, hy5⟩ := np_percentile_ok _ 5 (hmapne MCMetrics.MaxDD)
  obtain ⟨y50, hy50⟩ := np_percentile_ok _ 50 (hmapne MCMetrics.MaxDD)
  obtain ⟨y95, hy95⟩ := np_percentile_ok _ 95 (hmapne MCMetrics.MaxDD)
  have hiters := mc_iters_ok sim backtest rand hn (List.range sim.n_runs) [] [] []
  have hrun : sim.run backtest rand = Except.ok
      { runs := ((mc_successes sim backtest rand).map MCMetrics.CAGR).length,
        p5_cagr := x5, p50_cagr := x50, p95_cagr := x95,
        maxdd_p5 := y5, maxdd_p50 := y50, maxdd_p95 := y95 } := by
    unfold MonteCarloSimulator.run
    rw [hiters]
    simp only [List.nil_append]
    simp only [mc_successes] at hx5 hx50 hx95 hy5 hy50 hy95 ⊢
    simp only [hx5, hx50, hx95, hy5, hy50, hy95]
    rfl
  refine ⟨_, hrun, by simp, hx5, hx50, hx95, hy5, hy50, hy95⟩

/-- A five-row series: the very first resampling raises. -/
def mc_demo : MonteCarloSimulator :=
  { data := [flat_bar 0, flat_bar 1, flat_bar 2, flat_bar 3, flat_bar 4],
    entry_signals := [], exit_signals := [], n_runs := 1 }

/-- A backtest oracle that always succeeds. -/
def demo_backtest : List Bar → List Bool → List Bool → Except String MCMetrics :=
  fun _ _ _ => Except.ok ⟨0, 0, 0⟩

/-- A draw oracle (every draw 0). -/
def demo_rand : ℕ → List ℕ := fun _ => []

/-- Claim C8 counterexample: with 5 rows and a backtest that never fails, the
single iteration's resampling failure is NOT skipped — `_block_bootstrap` is
called outside the `try`, so the whole simulation aborts instead of
returning a result with `runs = 0` successful runs. -/
theorem C8_counterexample :
    mc_demo.run demo_backtest demo_rand = Except.error "low >= high" := by
  rfl

/-- A twenty-one-row series: resampling always succeeds. -/
def mc_demo_ok : MonteCarloSimulator :=
  { data := (List.range 21).map (fun k => flat_bar (k : ℤ)),
    entry_signals := [], exit_signals := [], n_runs := 1 }

/-- Claim C8 witness: on 21 rows with an always-succeeding backtest, the
single iteration succeeds and the aggregation hypotheses hold. -/
theorem C8_success_aggregation_witness :
    20 < mc_demo_ok.data.length ∧
      mc_successes mc_demo_ok demo_backtest demo_rand ≠ [] ∧
      ∃ r, mc_demo_ok.run demo_backtest demo_rand = Except.ok r ∧
        r.runs = (mc_successes mc_demo_ok demo_backtest demo_rand).length ∧
        np_percentile
            ((mc_successes mc_demo_ok demo_backtest demo_rand).map MCMetrics.CAGR) 5 =
          Except.ok r.p5_cagr ∧
        np_percentile
            ((mc_successes mc_demo_ok demo_backtest demo_rand).map MCMetrics.CAGR) 50 =
          Except.ok r.p50_cagr ∧
        np_percentile
            ((mc_successes mc_demo_ok demo_backtest demo_rand).map MCMetrics.CAGR) 95 =
          Except.ok r.p95_cagr ∧
        np_percentile
            ((mc_successes mc_demo_ok demo_backtest demo_rand).map MCMetrics.MaxDD) 5 =
          Except.ok r.maxdd_p5 ∧
        np_percentile
            ((mc_successes mc_demo_ok demo_backtest demo_rand).map MCMetrics.MaxDD) 50 =
          Except.ok r.maxdd_p50 ∧
        np_percentile
            ((mc_successes mc_demo_ok demo_backtest demo_rand).map MCMetrics.MaxDD) 95 =
          Except.ok r.maxdd_p95 :=
  ⟨by decide, by decide,
    C8_success_aggregation mc_demo_ok demo_backtest demo_rand (by decide) (by decide)⟩

end AutoStock
